import Mathlib

/-!
Instanced text rendering: glyph table construction and batched layout.

Shallow embedding of `text_rendering.cpp`.

Modelling conventions.
* Floating-point arithmetic is a parameter (`Arith`): the definitions apply the
  operations of the platform (`float` addition, multiplication, conversion from
  `int`, the `double` operations of the line advance, ...) in the order the C++
  expressions apply them, one rounded operation per C++ operation, and the general
  theorems hold for every implementation of these operations.  `ieee` is the
  IEEE 754 binary32 / binary64 implementation with round-to-nearest-even, used to
  evaluate the program on concrete inputs; `exact` is exact rational arithmetic.
* A float literal with an integer value (`48.0f`, `256.0f`, `1.0f`, `0`) is the
  conversion of that integer.
* A `char` is modelled by its code (a natural number); the program only ever
  compares codes for equality.
* `std::map<GLchar, Character>` is a finite partial function from codes to
  records.  `insert` keeps an existing record, `operator[]` value-initialises
  (all-zero record) a missing key and stores it.
* `std::vector` writes and reads outside the vector are undefined behaviour and
  are modelled by `none`.
* OpenGL is modelled by the log of instanced draws with the uniform data
  uploaded for each of them.
-/

namespace TextRendering

/-! ## Floating-point arithmetic -/

/-- The floating-point operations the program uses: `F` is `float`, `D` is
`double`. -/
structure Arith where
  /-- The values of type `float`. -/
  F : Type
  /-- The values of type `double`. -/
  D : Type
  /-- Conversion of an `int` or `unsigned int` to `float`. -/
  ofInt : Int → F
  /-- The `float` sum. -/
  add : F → F → F
  /-- The `float` difference. -/
  sub : F → F → F
  /-- The `float` product. -/
  mul : F → F → F
  /-- The `float` quotient. -/
  div : F → F → F
  /-- Conversion of a `float` to `double`. -/
  toDouble : F → D
  /-- Conversion of an `int` to `double`. -/
  ofIntD : Int → D
  /-- The `double` literal `1.3`. -/
  lit13 : D
  /-- The `double` product. -/
  mulD : D → D → D
  /-- The `double` difference. -/
  subD : D → D → D
  /-- Conversion of a `double` to `float`. -/
  toFloat : D → F

/-- A binary floating-point format: `prec` significant bits, finite values are the
naturals times `2 ^ (-scale)` with a sign, magnitudes from `2 ^ emax` overflow. -/
structure Format where
  prec : Nat
  scale : Nat
  emax : Nat

/-- The format of `float`. -/
def binary32 : Format := ⟨24, 149, 128⟩

/-- The format of `double`. -/
def binary64 : Format := ⟨53, 1074, 1024⟩

/-- A floating-point value: `fin neg m` is `m * 2 ^ (-scale)` with sign `neg`
(so both zeros exist), infinities, and one NaN. -/
inductive FP where
  | fin (neg : Bool) (m : Nat)
  | inf (neg : Bool)
  | nan
deriving DecidableEq

/-- The number of bits of `a`, for `a < 2 ^ fuel`, by halving. -/
def bitLengthSmall : Nat → Nat → Nat
  | 0, _ => 0
  | fuel + 1, a => if a = 0 then 0 else bitLengthSmall fuel (a / 2) + 1

/-- The multiple of 32 by which `a` is shifted right to get below `2 ^ 32`. -/
def chunkShift : Nat → Nat → Nat
  | 0, _ => 0
  | fuel + 1, a => if a < 2 ^ 32 then 0 else chunkShift fuel (a >>> 32) + 32

/-- The number of bits of `a`: the least `n` with `a < 2 ^ n`. -/
def bitLength (a : Nat) : Nat :=
  chunkShift a a + bitLengthSmall 32 (a >>> chunkShift a a)

/-- Round to nearest, ties to even: the magnitude `a * 2 ^ (-(scale + k))`
rounded to the format, in units of `2 ^ (-scale)`.  The `sh` low bits of `a` are
dropped: the `k` bits below the least unit of the format, and what exceeds `prec`
significant bits. -/
def roundMag (f : Format) (a k : Nat) : Nat :=
  let sh := max k (bitLength a - f.prec)
  let q := a >>> sh
  let r := a - (q <<< sh)
  let q1 := if (1 <<< sh) < 2 * r ∨ (2 * r = (1 <<< sh) ∧ q % 2 = 1) then q + 1 else q
  q1 <<< (sh - k)

/-- The rounded value of `a * 2 ^ (-(scale + k))` with sign `neg`; infinity when
the rounded magnitude reaches `2 ^ emax`. -/
def roundTo (f : Format) (neg : Bool) (a k : Nat) : FP :=
  if f.emax + f.scale < bitLength (roundMag f a k) then FP.inf neg
  else FP.fin neg (roundMag f a k)

/-- IEEE addition. -/
def FP.add (f : Format) : FP → FP → FP
  | FP.fin s a, FP.fin t b =>
    if s = t then roundTo f s (a + b) 0
    else if a = b then FP.fin false 0
    else if b < a then roundTo f s (a - b) 0
    else roundTo f t (b - a) 0
  | FP.nan, _ => FP.nan
  | _, FP.nan => FP.nan
  | FP.inf s, FP.inf t => if s = t then FP.inf s else FP.nan
  | FP.inf s, FP.fin _ _ => FP.inf s
  | FP.fin _ _, FP.inf t => FP.inf t

/-- IEEE negation. -/
def FP.neg : FP → FP
  | FP.fin s a => FP.fin (!s) a
  | FP.inf s => FP.inf (!s)
  | FP.nan => FP.nan

/-- IEEE subtraction. -/
def FP.sub (f : Format) (a b : FP) : FP := FP.add f a b.neg

/-- IEEE multiplication. -/
def FP.mul (f : Format) : FP → FP → FP
  | FP.fin s a, FP.fin t b => roundTo f (xor s t) (a * b) f.scale
  | FP.nan, _ => FP.nan
  | _, FP.nan => FP.nan
  | FP.inf s, FP.inf t => FP.inf (xor s t)
  | FP.inf s, FP.fin t b => if b = 0 then FP.nan else FP.inf (xor s t)
  | FP.fin s a, FP.inf t => if a = 0 then FP.nan else FP.inf (xor s t)

/-- IEEE division: the quotient is computed to two bits below the format's least
unit, with a sticky bit for the remainder, and rounded. -/
def FP.div (f : Format) : FP → FP → FP
  | FP.fin s a, FP.fin t b =>
    if b = 0 then (if a = 0 then FP.nan else FP.inf (xor s t))
    else roundTo f (xor s t)
      (2 * ((a <<< (f.scale + 2)) / b) + (if (a <<< (f.scale + 2)) % b = 0 then 0 else 1)) 3
  | FP.nan, _ => FP.nan
  | _, FP.nan => FP.nan
  | FP.inf _, FP.inf _ => FP.nan
  | FP.inf s, FP.fin t _ => FP.inf (xor s t)
  | FP.fin s _, FP.inf t => FP.fin (xor s t) 0

/-- Conversion of an integer to the format. -/
def FP.ofInt (f : Format) (n : Int) : FP :=
  roundTo f (decide (n < 0)) (n.natAbs <<< f.scale) 0

/-- Conversion of a `float` to `double` (exact). -/
def FP.widen : FP → FP
  | FP.fin s a => FP.fin s (a <<< (binary64.scale - binary32.scale))
  | x => x

/-- Conversion of a `double` to `float` (rounded). -/
def FP.narrow : FP → FP
  | FP.fin s a => roundTo binary32 s a (binary64.scale - binary32.scale)
  | x => x

/-- The real value of a finite `float` (0 for the others). -/
def FP.toRat : FP → ℚ
  | FP.fin s a => (if s then -1 else 1) * (a : ℚ) / 2 ^ binary32.scale
  | _ => 0

/-- IEEE 754 arithmetic: `float` is binary32, `double` is binary64. -/
@[reducible] def ieee : Arith where
  F := FP
  D := FP
  ofInt := FP.ofInt binary32
  add := FP.add binary32
  sub := FP.sub binary32
  mul := FP.mul binary32
  div := FP.div binary32
  toDouble := FP.widen
  ofIntD := FP.ofInt binary64
  lit13 := FP.div binary64 (FP.ofInt binary64 13) (FP.ofInt binary64 10)
  mulD := FP.mul binary64
  subD := FP.sub binary64
  toFloat := FP.narrow

/-- Exact rational arithmetic. -/
@[reducible] def exact : Arith where
  F := ℚ
  D := ℚ
  ofInt := fun n => (n : ℚ)
  add := fun a b => a + b
  sub := fun a b => a - b
  mul := fun a b => a * b
  div := fun a b => a / b
  toDouble := fun a => a
  ofIntD := fun n => (n : ℚ)
  lit13 := 13 / 10
  mulD := fun a b => a * b
  subD := fun a b => a - b
  toFloat := fun a => a

/-! ## glm vectors and matrices (column major, as in glm) -/

/-- A glm `vec3`. -/
structure vec3 (A : Arith) where
  x : A.F
  y : A.F
  z : A.F

/-- A glm `vec4`. -/
structure vec4 (A : Arith) where
  x : A.F
  y : A.F
  z : A.F
  w : A.F

/-- Componentwise `v * k`. -/
def vec4.smul {A : Arith} (v : vec4 A) (k : A.F) : vec4 A :=
  ⟨A.mul v.x k, A.mul v.y k, A.mul v.z k, A.mul v.w k⟩

/-- Componentwise `a + b`. -/
def vec4.add {A : Arith} (a b : vec4 A) : vec4 A :=
  ⟨A.add a.x b.x, A.add a.y b.y, A.add a.z b.z, A.add a.w b.w⟩

/-- A glm `mat4`: four columns, `m[i]` is column `i`. -/
structure mat4 (A : Arith) where
  c0 : vec4 A
  c1 : vec4 A
  c2 : vec4 A
  c3 : vec4 A

/-- The matrix `mat4(1.0f)`. -/
def mat4.identity (A : Arith) : mat4 A :=
  ⟨⟨A.ofInt 1, A.ofInt 0, A.ofInt 0, A.ofInt 0⟩, ⟨A.ofInt 0, A.ofInt 1, A.ofInt 0, A.ofInt 0⟩,
    ⟨A.ofInt 0, A.ofInt 0, A.ofInt 1, A.ofInt 0⟩, ⟨A.ofInt 0, A.ofInt 0, A.ofInt 0, A.ofInt 1⟩⟩

/-- The product `m * v` of a matrix and a column vector. -/
def mat4.mulVec {A : Arith} (m : mat4 A) (v : vec4 A) : vec4 A :=
  (((m.c0.smul v.x).add (m.c1.smul v.y)).add (m.c2.smul v.z)).add (m.c3.smul v.w)

/-- The product `a * b` of two matrices. -/
def mat4.mul {A : Arith} (a b : mat4 A) : mat4 A :=
  ⟨a.mulVec b.c0, a.mulVec b.c1, a.mulVec b.c2, a.mulVec b.c3⟩

/-- The function `glm::translate(m, v)`:
`Result[3] = m[0] * v[0] + m[1] * v[1] + m[2] * v[2] + m[3]`. -/
def translate {A : Arith} (m : mat4 A) (v : vec3 A) : mat4 A :=
  ⟨m.c0, m.c1, m.c2, (((m.c0.smul v.x).add (m.c1.smul v.y)).add (m.c2.smul v.z)).add m.c3⟩

/-- The function `glm::scale(m, v)`: column `i` of `m` times `v[i]`, last column kept. -/
def scale {A : Arith} (m : mat4 A) (v : vec3 A) : mat4 A :=
  ⟨m.c0.smul v.x, m.c1.smul v.y, m.c2.smul v.z, m.c3⟩

/-! ## Data model -/

/-- A character code (`GLchar`). -/
abbrev GLchar := Nat

/-- The constant `ARRAY_LIMIT`. -/
def ARRAY_LIMIT : Nat := 400

/-- The struct `Character`. -/
structure Character where
  TextureID : Int
  Size : Int × Int
  Bearing : Int × Int
  Advance : Nat
deriving DecidableEq

/-- A value-initialised `Character` (what `operator[]` stores for a missing key). -/
def Character.zero : Character := ⟨0, (0, 0), (0, 0), 0⟩

/-- The type of the global `Characters`. -/
abbrev CharMap := GLchar → Option Character

/-- The method `std::map::insert`: an existing record is kept. -/
def CharMap.insert (m : CharMap) (k : GLchar) (v : Character) : CharMap :=
  fun j => if j = k then (match m k with
    | some old => some old
    | none => some v) else m j

/-- The method `std::map::operator[]`: the record of `k`, stored value-initialised
when `k` had none. -/
def CharMap.index (m : CharMap) (k : GLchar) : Character × CharMap :=
  match m k with
  | some r => (r, m)
  | none => (Character.zero, fun j => if j = k then some Character.zero else m j)

/-- The file-scope state read and written by `RenderText`. -/
structure Globals (A : Arith) where
  Characters : CharMap
  transforms : List (mat4 A)
  letterMap : List Int

/-- One `glDrawArraysInstanced` with the uniform arrays uploaded just before it. -/
structure DrawCall (A : Arith) where
  count : Nat
  transforms : List (mat4 A)
  letterMap : List Int

/-! ## Glyph table construction (`main`) -/

/-- What the rasterizer leaves in `face->glyph` after a successful `FT_Load_Char`. -/
structure GlyphSlot where
  width : Nat
  rows : Nat
  bitmap_left : Int
  bitmap_top : Int
  advance_x : Int

/-- The rasterizer: `FT_Load_Char(face, c, FT_LOAD_RENDER)`, `none` when it
returns an error. -/
abbrev Face := GLchar → Option GlyphSlot

/-- The record built in the glyph loop of `main` for code `c`;
`static_cast<unsigned int>` wraps the advance modulo `2^32`. -/
def mkCharacter (c : GLchar) (g : GlyphSlot) : Character :=
  { TextureID := (c : Int)
    Size := ((g.width : Int), (g.rows : Int))
    Bearing := (g.bitmap_left, g.bitmap_top)
    Advance := (g.advance_x % 2 ^ 32).toNat }

/-- One iteration of the glyph loop of `main`. -/
def loadGlyph (face : Face) (m : CharMap) (c : GLchar) : CharMap :=
  match face c with
  | none => m
  | some g => m.insert c (mkCharacter c g)

/-- The glyph loop of `main`: `for (c = 0; c < 128; c++)` on the empty map. -/
def loadGlyphs (face : Face) : CharMap :=
  (List.range 128).foldl (loadGlyph face) (fun _ => none)

/-- The global state when the render loop of `main` starts. -/
def startup (A : Arith) (face : Face) : Globals A :=
  { Characters := loadGlyphs face
    transforms := List.replicate ARRAY_LIMIT (mat4.identity A)
    letterMap := List.replicate ARRAY_LIMIT 0 }

/-! ## `TextRenderCall` and `RenderText` -/

/-- A write `v[i] = a` to a `std::vector`. -/
def vecSet {α : Type} (v : List α) (i : Nat) (a : α) : Option (List α) :=
  if i < v.length then some (v.set i a) else none

/-- The function `TextRenderCall`: the draws it issues. -/
def TextRenderCall {A : Arith} (length : Nat) (g : Globals A) : Option (List (DrawCall A)) :=
  if length ≠ 0 then
    if length ≤ g.transforms.length ∧ length ≤ g.letterMap.length then
      some [⟨length, g.transforms.take length, g.letterMap.take length⟩]
    else none
  else some []

/-- The local and global state of a running `RenderText`, with the log of the
lengths passed to `TextRenderCall` and of the draws issued. -/
structure RenderState (A : Arith) where
  x : A.F
  y : A.F
  workingIndex : Nat
  globals : Globals A
  calls : List Nat
  draws : List (DrawCall A)

/-- The transform stored for a glyph record `ch` at pen position `(x, y)`
(lines 263 to 266). -/
def glyphTransform (A : Arith) (scale_ x y : A.F) (ch : Character) : mat4 A :=
  let xpos := A.add x (A.mul (A.ofInt ch.Bearing.1) scale_)
  let ypos := A.sub y (A.mul (A.ofInt (256 - ch.Bearing.2)) scale_)
  (translate (mat4.identity A) ⟨xpos, ypos, A.ofInt 0⟩).mul
    (scale (mat4.identity A) ⟨A.mul (A.ofInt 256) scale_, A.mul (A.ofInt 256) scale_, A.ofInt 0⟩)

/-- The last branch of the loop body up to `workingIndex++`. -/
def appendGlyph (A : Arith) (scale_ : A.F) (ch : Character) (s : RenderState A) :
    Option (RenderState A) :=
  match vecSet s.globals.transforms s.workingIndex (glyphTransform A scale_ s.x s.y ch) with
  | none => none
  | some ts =>
    match vecSet s.globals.letterMap s.workingIndex ch.TextureID with
    | none => none
    | some lm =>
      some { s with
        globals := { s.globals with transforms := ts, letterMap := lm }
        x := A.add s.x (A.mul (A.ofInt ((ch.Advance >>> 6 : Nat) : Int)) scale_)
        workingIndex := s.workingIndex + 1 }

/-- The statement `if (workingIndex == ARRAY_LIMIT) { TextRenderCall(...); workingIndex = 0; }`. -/
def flushIfFull {A : Arith} (s : RenderState A) : Option (RenderState A) :=
  if s.workingIndex = ARRAY_LIMIT then
    match TextRenderCall s.workingIndex s.globals with
    | none => none
    | some ds =>
      some { s with
        calls := s.calls ++ [s.workingIndex]
        draws := s.draws ++ ds
        workingIndex := 0 }
  else some s

/-- The body of the loop of `RenderText` for the character `c`. -/
def renderChar (A : Arith) (scale_ copyX : A.F) (s : RenderState A) (c : GLchar) :
    Option (RenderState A) :=
  let ch := (s.globals.Characters.index c).1
  let s1 : RenderState A :=
    { s with globals := { s.globals with Characters := (s.globals.Characters.index c).2 } }
  if c = 10 then
    some { s1 with
      y := A.toFloat (A.subD (A.toDouble s1.y)
        (A.mulD (A.mulD (A.ofIntD ch.Size.2) A.lit13) (A.toDouble scale_)))
      x := copyX }
  else if c = 32 then
    some { s1 with x := A.add s1.x (A.mul (A.ofInt ((ch.Advance >>> 6 : Nat) : Int)) scale_) }
  else
    (appendGlyph A scale_ ch s1).bind flushIfFull

/-- The loop of `RenderText` over the characters of the text. -/
def renderLoop (A : Arith) (scale_ copyX : A.F) :
    RenderState A → List GLchar → Option (RenderState A)
  | s, [] => some s
  | s, c :: cs =>
    (renderChar A scale_ copyX s c).bind (fun s1 => renderLoop A scale_ copyX s1 cs)

/-- The state of `RenderText` when its loop starts. -/
def initState {A : Arith} (g : Globals A) (x y : A.F) : RenderState A :=
  { x := x, y := y, workingIndex := 0, globals := g, calls := [], draws := [] }

/-- The final `TextRenderCall(workingIndex, shader.ID)` of `RenderText`. -/
def finalFlush {A : Arith} (s : RenderState A) : Option (RenderState A) :=
  match TextRenderCall s.workingIndex s.globals with
  | none => none
  | some ds => some { s with calls := s.calls ++ [s.workingIndex], draws := s.draws ++ ds }

/-- The function `RenderText`: the state it ends in (globals, logs of calls and
draws).  Its first statement replaces `scale` by `scale * 48.0f / 256.0f`. -/
def RenderText (A : Arith) (g : Globals A) (text : List GLchar) (x y scale_ : A.F)
    (_color : vec3 A) : Option (RenderState A) :=
  (renderLoop A (A.div (A.mul scale_ (A.ofInt 48)) (A.ofInt 256)) x (initState g x y) text).bind
    finalFlush

/-! ## Layout as the specification words it -/

/-- The record `operator[]` returns for `c`: the stored one, all-zero when absent. -/
def lookupD (m : CharMap) (c : GLchar) : Character := (m c).getD ⟨0, (0, 0), (0, 0), 0⟩

/-- A visible character: neither newline nor space. -/
def visible (c : GLchar) : Bool := c != 10 && c != 32

/-- The characters since the most recent newline (all of them when there is none). -/
def currentLine (pre : List GLchar) : List GLchar :=
  (pre.reverse.takeWhile (fun c => c != 10)).reverse

/-- The pen x after one more character `k` of the line: the `float` sum of the pen
x and the `float` product of `Advance >> 6` and the effective scale. -/
def advanceBy (A : Arith) (m : CharMap) (e : A.F) (px : A.F) (k : GLchar) : A.F :=
  A.add px (A.mul (A.ofInt (((lookupD m k).Advance >>> 6 : Nat) : Int)) e)

/-- The pen x after the characters `pre`: starting from the origin x, the advances
of the characters since the most recent newline, added one after the other. -/
def penX (A : Arith) (m : CharMap) (e x0 : A.F) (pre : List GLchar) : A.F :=
  (currentLine pre).foldl (advanceBy A m e) x0

/-- The pen y after one newline, for a line height `H`: `py - H * 1.3 * e`
computed in `double` and converted back to `float`. -/
def lineDrop (A : Arith) (H : Int) (e : A.F) (py : A.F) : A.F :=
  A.toFloat (A.subD (A.toDouble py) (A.mulD (A.mulD (A.ofIntD H) A.lit13) (A.toDouble e)))

/-- The pen y after the characters `pre`: one `lineDrop` per newline, with the
bitmap height recorded for the newline character itself as line height. -/
def penY (A : Arith) (m : CharMap) (e y0 : A.F) (pre : List GLchar) : A.F :=
  Nat.iterate (lineDrop A (lookupD m 10).Size.2 e) (pre.count 10) y0

/-- The matrix `translate(xpos, ypos, 0) * scale(256 e, 256 e, 0)` for a record at
the pen `(px, py)`: `xpos = px + bearing.x * e`, `ypos = py - (256 - bearing.y) * e`. -/
def placement (A : Arith) (e px py : A.F) (r : Character) : mat4 A :=
  (translate (mat4.identity A)
      ⟨A.add px (A.mul (A.ofInt r.Bearing.1) e),
        A.sub py (A.mul (A.ofInt (256 - r.Bearing.2)) e), A.ofInt 0⟩).mul
    (scale (mat4.identity A) ⟨A.mul (A.ofInt 256) e, A.mul (A.ofInt 256) e, A.ofInt 0⟩)

/-- The batch entry (transform, layer index) of a character laid out after `pre`. -/
def entryAt (A : Arith) (m : CharMap) (e x0 y0 : A.F) (pre : List GLchar) (c : GLchar) :
    mat4 A × Int :=
  (placement A e (penX A m e x0 pre) (penY A m e y0 pre) (lookupD m c), (lookupD m c).TextureID)

/-- The batch entries of the visible characters of `rest`, laid out after `done`. -/
def layoutFrom (A : Arith) (m : CharMap) (e x0 y0 : A.F) :
    List GLchar → List GLchar → List (mat4 A × Int)
  | _, [] => []
  | done, c :: cs =>
    (if visible c then [entryAt A m e x0 y0 done c] else [])
      ++ layoutFrom A m e x0 y0 (done ++ [c]) cs

/-- The batch entries of the visible characters of a text, in text order. -/
def layout (A : Arith) (m : CharMap) (e x0 y0 : A.F) (text : List GLchar) :
    List (mat4 A × Int) :=
  layoutFrom A m e x0 y0 [] text

/-- The instance counts the specification gives for `n` visible characters. -/
def batchCounts (n : Nat) : List Nat :=
  List.replicate (n / ARRAY_LIMIT) ARRAY_LIMIT ++
    (if n % ARRAY_LIMIT ≠ 0 then [n % ARRAY_LIMIT] else [])

/-- The state of the loop of `RenderText` after the characters `pre`, for a call
that started with the glyph table `m0` and the pen at `(x0, y0)`: buffers keep
their size, the table only gains all-zero records, the pen is where `penX` and
`penY` put it, and the full batches drawn so far followed by the pending part of
the buffers are the entries of the visible characters of `pre`. -/
structure Reached {A : Arith} (m0 : CharMap) (e x0 y0 : A.F) (pre : List GLchar)
    (s : RenderState A) : Prop where
  lenT : s.globals.transforms.length = ARRAY_LIMIT
  lenL : s.globals.letterMap.length = ARRAY_LIMIT
  table : ∀ k, s.globals.Characters k =
    if m0 k = none ∧ k ∈ pre then some ⟨0, (0, 0), (0, 0), 0⟩ else m0 k
  penx : s.x = penX A m0 e x0 pre
  peny : s.y = penY A m0 e y0 pre
  idx : s.workingIndex = (layout A m0 e x0 y0 pre).length % ARRAY_LIMIT
  counts : s.draws.map DrawCall.count =
    List.replicate ((layout A m0 e x0 y0 pre).length / ARRAY_LIMIT) ARRAY_LIMIT
  calls : s.calls = s.draws.map DrawCall.count
  trans : (s.draws.map DrawCall.transforms).flatten ++
      s.globals.transforms.take s.workingIndex = (layout A m0 e x0 y0 pre).map Prod.fst
  layers : (s.draws.map DrawCall.letterMap).flatten ++
      s.globals.letterMap.take s.workingIndex = (layout A m0 e x0 y0 pre).map Prod.snd
  wf : ∀ d ∈ s.draws, d.transforms.length = d.count ∧ d.letterMap.length = d.count

/-! ## Example inputs -/

/-- A rasterizer for examples: every code loads; newline and space have an empty
bitmap, every other glyph is 120 x 180 with bearing (8, 170); advance 60 pixels. -/
def demoFace : Face :=
  fun c => some ⟨if c = 10 ∨ c = 32 then 0 else 120, if c = 10 ∨ c = 32 then 0 else 180,
    8, 170, 3840⟩

/-- A rasterizer for examples: as `demoFace`, but code 127 fails to load. -/
def demoFaceFailing : Face :=
  fun c => if c = 127 then none else demoFace c

/-- A rasterizer for examples: every code, newline included, loads the same box
glyph of 100 x 181 with bearing (8, 181); advance 60 pixels. -/
def boxFace : Face :=
  fun _ => some ⟨100, 181, 8, 181, 3840⟩

/-- The requested scale `1.3f`. -/
def scale13 : FP := ieee.div (ieee.ofInt 13) (ieee.ofInt 10)

/-- The effective scale the program computes for the requested scale 1. -/
def eff1 : FP := ieee.div (ieee.mul (ieee.ofInt 1) (ieee.ofInt 48)) (ieee.ofInt 256)

/-- The effective scale the program computes for the requested scale `1.3f`. -/
def eff13 : FP := ieee.div (ieee.mul scale13 (ieee.ofInt 48)) (ieee.ofInt 256)

/-- A colour for the examples. -/
def green : vec3 ieee := ⟨ieee.ofInt 0, ieee.ofInt 1, ieee.ofInt 0⟩

/-! ## Helper lemmas -/

theorem currentLine_snoc (pre : List GLchar) (c : GLchar) :
    currentLine (pre ++ [c]) = if c = 10 then [] else currentLine pre ++ [c] := by
  unfold currentLine
  by_cases h : c = 10
  · simp [h, List.takeWhile]
  · simp [h, List.takeWhile]

theorem penX_snoc {A : Arith} (m : CharMap) (e x0 : A.F) (pre : List GLchar) (c : GLchar) :
    penX A m e x0 (pre ++ [c]) =
      if c = 10 then x0 else advanceBy A m e (penX A m e x0 pre) c := by
  unfold penX
  rw [currentLine_snoc]
  by_cases h : c = 10
  · simp [h]
  · simp [h, List.foldl_append]

theorem penY_snoc {A : Arith} (m : CharMap) (e y0 : A.F) (pre : List GLchar) (c : GLchar) :
    penY A m e y0 (pre ++ [c]) =
      if c = 10 then lineDrop A (lookupD m 10).Size.2 e (penY A m e y0 pre)
      else penY A m e y0 pre := by
  unfold penY
  by_cases h : c = 10
  · subst h
    simp [List.count_append, Function.iterate_succ_apply']
  · simp [h, List.count_append, List.count_cons, Ne.symm h]

theorem layoutFrom_append {A : Arith} (m : CharMap) (e x0 y0 : A.F) (done a b : List GLchar) :
    layoutFrom A m e x0 y0 done (a ++ b) =
      layoutFrom A m e x0 y0 done a ++ layoutFrom A m e x0 y0 (done ++ a) b := by
  induction a generalizing done with
  | nil => simp [layoutFrom]
  | cons c cs ih => simp [layoutFrom, ih, List.append_assoc]

theorem layout_snoc {A : Arith} (m : CharMap) (e x0 y0 : A.F) (pre : List GLchar)
    (c : GLchar) :
    layout A m e x0 y0 (pre ++ [c]) =
      layout A m e x0 y0 pre ++ (if visible c then [entryAt A m e x0 y0 pre c] else []) := by
  unfold layout
  rw [layoutFrom_append]
  simp [layoutFrom]

theorem layoutFrom_snd {A : Arith} (m : CharMap) (e x0 y0 : A.F) (done text : List GLchar) :
    (layoutFrom A m e x0 y0 done text).map Prod.snd =
      (text.filter visible).map (fun c => (lookupD m c).TextureID) := by
  induction text generalizing done with
  | nil => simp [layoutFrom]
  | cons c cs ih =>
    by_cases h : visible c = true
    · simp [layoutFrom, ih, h, entryAt]
    · simp [layoutFrom, ih, h]

theorem layoutFrom_length {A : Arith} (m : CharMap) (e x0 y0 : A.F)
    (done text : List GLchar) :
    (layoutFrom A m e x0 y0 done text).length = (text.filter visible).length := by
  have h := congrArg List.length (layoutFrom_snd m e x0 y0 done text)
  simpa using h

theorem layout_length {A : Arith} (m : CharMap) (e x0 y0 : A.F) (text : List GLchar) :
    (layout A m e x0 y0 text).length = (text.filter visible).length :=
  layoutFrom_length m e x0 y0 [] text

theorem layout_snd {A : Arith} (m : CharMap) (e x0 y0 : A.F) (text : List GLchar) :
    (layout A m e x0 y0 text).map Prod.snd =
      (text.filter visible).map (fun c => (lookupD m c).TextureID) :=
  layoutFrom_snd m e x0 y0 [] text

/-- The entry of a visible character `c` between `pre` and `post` is entry number
`(pre.filter visible).length` of the layout of the whole text. -/
theorem layout_entry {A : Arith} (m : CharMap) (e x0 y0 : A.F) (pre post : List GLchar)
    (c : GLchar) (hv : visible c = true) :
    (layout A m e x0 y0 (pre ++ c :: post))[(pre.filter visible).length]? =
      some (entryAt A m e x0 y0 pre c) := by
  have h : layout A m e x0 y0 (pre ++ c :: post) =
      layout A m e x0 y0 pre ++
        (entryAt A m e x0 y0 pre c :: layoutFrom A m e x0 y0 (pre ++ [c]) post) := by
    unfold layout
    rw [layoutFrom_append]
    simp [layoutFrom, hv]
  rw [h, ← layout_length m e x0 y0 pre, List.getElem?_append_right (Nat.le_refl _)]
  simp

theorem renderLoop_append {A : Arith} (e x0 : A.F) (s : RenderState A) (a b : List GLchar) :
    renderLoop A e x0 s (a ++ b) =
      (renderLoop A e x0 s a).bind (fun s1 => renderLoop A e x0 s1 b) := by
  induction a generalizing s with
  | nil => simp [renderLoop]
  | cons c cs ih =>
    simp only [List.cons_append, renderLoop]
    cases h : renderChar A e x0 s c with
    | none => simp
    | some s1 => simp [ih]

theorem take_set_succ {α : Type} (l : List α) (i : Nat) (a : α) (h : i < l.length) :
    (l.set i a).take (i + 1) = l.take i ++ [a] := by
  induction l generalizing i with
  | nil => simp at h
  | cons b bs ih =>
    cases i with
    | zero => simp
    | succ j =>
      simp only [List.length_cons, Nat.add_lt_add_iff_right] at h
      simp [ih j h]

theorem index_fst (m : CharMap) (c : GLchar) : (m.index c).1 = lookupD m c := by
  unfold CharMap.index lookupD
  cases h : m c <;> simp [Character.zero]

theorem index_snd (m : CharMap) (c k : GLchar) :
    (m.index c).2 k =
      if m k = none ∧ k = c then some ⟨0, (0, 0), (0, 0), 0⟩ else m k := by
  unfold CharMap.index
  cases h : m c with
  | none =>
    by_cases hk : k = c
    · simp [hk, h, Character.zero]
    · simp [hk]
  | some r =>
    by_cases hk : k = c
    · simp [hk, h]
    · simp [hk]

theorem lookupD_of_table (m0 m : CharMap) (pre : List GLchar)
    (h : ∀ k, m k = if m0 k = none ∧ k ∈ pre then some ⟨0, (0, 0), (0, 0), 0⟩ else m0 k)
    (c : GLchar) : lookupD m c = lookupD m0 c := by
  unfold lookupD
  rw [h c]
  cases hc : m0 c with
  | none => by_cases hp : c ∈ pre <;> simp [hp]
  | some r => simp

theorem table_step (m0 m : CharMap) (pre : List GLchar)
    (h : ∀ k, m k = if m0 k = none ∧ k ∈ pre then some ⟨0, (0, 0), (0, 0), 0⟩ else m0 k)
    (c k : GLchar) :
    (m.index c).2 k =
      if m0 k = none ∧ k ∈ pre ++ [c] then some ⟨0, (0, 0), (0, 0), 0⟩ else m0 k := by
  rw [index_snd, h k]
  simp only [List.mem_append, List.mem_singleton]
  cases hm : m0 k with
  | none => by_cases hp : k ∈ pre <;> by_cases hk : k = c <;> simp [hp, hk]
  | some r => simp

theorem reached_init {A : Arith} (g : Globals A) (e x0 y0 : A.F)
    (hT : g.transforms.length = ARRAY_LIMIT) (hL : g.letterMap.length = ARRAY_LIMIT) :
    Reached g.Characters e x0 y0 [] (initState g x0 y0) := by
  constructor <;>
    simp [initState, hT, hL, penX, penY, currentLine, layout, layoutFrom]

theorem reached_newline {A : Arith} (m0 : CharMap) (e x0 y0 : A.F) (pre : List GLchar)
    (s : RenderState A) (h : Reached m0 e x0 y0 pre s) :
    ∃ s1, renderChar A e x0 s 10 = some s1 ∧ Reached m0 e x0 y0 (pre ++ [10]) s1 := by
  have hl : lookupD s.globals.Characters 10 = lookupD m0 10 :=
    lookupD_of_table m0 _ pre h.table 10
  refine ⟨_, rfl, ?_⟩
  have hlay : layout A m0 e x0 y0 (pre ++ [10]) = layout A m0 e x0 y0 pre := by
    rw [layout_snoc]; simp [visible]
  constructor
  · exact h.lenT
  · exact h.lenL
  · exact table_step m0 _ pre h.table 10
  · simp [penX_snoc]
  · simp only [index_fst, hl, h.peny, penY_snoc, if_true, lineDrop]
  · rw [hlay]; exact h.idx
  · rw [hlay]; exact h.counts
  · exact h.calls
  · rw [hlay]; exact h.trans
  · rw [hlay]; exact h.layers
  · exact h.wf

theorem reached_space {A : Arith} (m0 : CharMap) (e x0 y0 : A.F) (pre : List GLchar)
    (s : RenderState A) (h : Reached m0 e x0 y0 pre s) :
    ∃ s1, renderChar A e x0 s 32 = some s1 ∧ Reached m0 e x0 y0 (pre ++ [32]) s1 := by
  have hl : lookupD s.globals.Characters 32 = lookupD m0 32 :=
    lookupD_of_table m0 _ pre h.table 32
  refine ⟨_, rfl, ?_⟩
  have hlay : layout A m0 e x0 y0 (pre ++ [32]) = layout A m0 e x0 y0 pre := by
    rw [layout_snoc]; simp [visible]
  constructor
  · exact h.lenT
  · exact h.lenL
  · exact table_step m0 _ pre h.table 32
  · simp [index_fst, hl, h.penx, penX_snoc, advanceBy]
  · simp [h.peny, penY_snoc]
  · rw [hlay]; exact h.idx
  · rw [hlay]; exact h.counts
  · exact h.calls
  · rw [hlay]; exact h.trans
  · rw [hlay]; exact h.layers
  · exact h.wf

theorem appendGlyph_eq {A : Arith} (e : A.F) (ch : Character) (s : RenderState A)
    (hT : s.workingIndex < s.globals.transforms.length)
    (hL : s.workingIndex < s.globals.letterMap.length) :
    appendGlyph A e ch s = some { s with
      globals := { s.globals with
        transforms := s.globals.transforms.set s.workingIndex (glyphTransform A e s.x s.y ch)
        letterMap := s.globals.letterMap.set s.workingIndex ch.TextureID }
      x := A.add s.x (A.mul (A.ofInt ((ch.Advance >>> 6 : Nat) : Int)) e)
      workingIndex := s.workingIndex + 1 } := by
  simp [appendGlyph, vecSet, hT, hL]

theorem glyphTransform_eq_placement {A : Arith} (e px py : A.F) (r : Character) :
    glyphTransform A e px py r = placement A e px py r := rfl

theorem flushIfFull_full {A : Arith} (s : RenderState A) (h : s.workingIndex = ARRAY_LIMIT)
    (hT : ARRAY_LIMIT ≤ s.globals.transforms.length)
    (hL : ARRAY_LIMIT ≤ s.globals.letterMap.length) :
    flushIfFull s = some ⟨s.x, s.y, 0, s.globals, s.calls ++ [s.workingIndex],
      s.draws ++ [⟨s.workingIndex, s.globals.transforms.take s.workingIndex,
        s.globals.letterMap.take s.workingIndex⟩]⟩ := by
  have h0 : s.workingIndex ≠ 0 := by rw [h]; decide
  have h1 : s.workingIndex ≤ s.globals.transforms.length := by rw [h]; exact hT
  have h2 : s.workingIndex ≤ s.globals.letterMap.length := by rw [h]; exact hL
  simp only [flushIfFull, TextRenderCall, if_pos h, if_pos h0, h1, h2, and_self, if_true]

theorem flushIfFull_not_full {A : Arith} (s : RenderState A)
    (h : s.workingIndex ≠ ARRAY_LIMIT) : flushIfFull s = some s := by
  simp only [flushIfFull, if_neg h]

/-- The loop body on a visible character, step by step: the entry is written at
the old fill index, the index is incremented, and a full batch is flushed. -/
theorem renderChar_visible_eq {A : Arith} (e x0 : A.F) (s : RenderState A) (c : GLchar)
    (hv : visible c = true)
    (hT : s.globals.transforms.length = ARRAY_LIMIT)
    (hL : s.globals.letterMap.length = ARRAY_LIMIT)
    (hwi : s.workingIndex < ARRAY_LIMIT) :
    ∃ s2 s1,
      appendGlyph A e (lookupD s.globals.Characters c)
        ⟨s.x, s.y, s.workingIndex,
          ⟨(s.globals.Characters.index c).2, s.globals.transforms, s.globals.letterMap⟩,
          s.calls, s.draws⟩ = some s2 ∧
      flushIfFull s2 = some s1 ∧
      renderChar A e x0 s c = some s1 ∧
      s2.workingIndex = s.workingIndex + 1 ∧
      s2.calls = s.calls ∧ s2.draws = s.draws ∧
      s2.globals.Characters = (s.globals.Characters.index c).2 ∧
      s1.globals = s2.globals ∧
      s2.x = advanceBy A s.globals.Characters e s.x c ∧
      s1.x = s2.x ∧ s2.y = s.y ∧ s1.y = s.y ∧
      s2.globals.transforms = s.globals.transforms.set s.workingIndex
        (placement A e s.x s.y (lookupD s.globals.Characters c)) ∧
      s2.globals.letterMap = s.globals.letterMap.set s.workingIndex
        (lookupD s.globals.Characters c).TextureID ∧
      ((s.workingIndex + 1 = ARRAY_LIMIT ∧ s1.workingIndex = 0 ∧
          s1.calls = s.calls ++ [s.workingIndex + 1] ∧
          s1.draws = s.draws ++ [⟨s.workingIndex + 1,
            s2.globals.transforms.take (s.workingIndex + 1),
            s2.globals.letterMap.take (s.workingIndex + 1)⟩]) ∨
        (s.workingIndex + 1 ≠ ARRAY_LIMIT ∧ s1 = s2)) := by
  have hc10 : c ≠ 10 := by
    intro hc; simp [visible, hc] at hv
  have hc32 : c ≠ 32 := by
    intro hc; simp [visible, hc] at hv
  obtain ⟨s2, hs2, h2wi, h2c, h2d, h2tab, h2x, h2y, h2t, h2l⟩ : ∃ s2,
      appendGlyph A e (lookupD s.globals.Characters c)
        ⟨s.x, s.y, s.workingIndex,
          ⟨(s.globals.Characters.index c).2, s.globals.transforms, s.globals.letterMap⟩,
          s.calls, s.draws⟩ = some s2 ∧
      s2.workingIndex = s.workingIndex + 1 ∧
      s2.calls = s.calls ∧ s2.draws = s.draws ∧
      s2.globals.Characters = (s.globals.Characters.index c).2 ∧
      s2.x = advanceBy A s.globals.Characters e s.x c ∧
      s2.y = s.y ∧
      s2.globals.transforms = s.globals.transforms.set s.workingIndex
        (placement A e s.x s.y (lookupD s.globals.Characters c)) ∧
      s2.globals.letterMap = s.globals.letterMap.set s.workingIndex
        (lookupD s.globals.Characters c).TextureID :=
    ⟨_, appendGlyph_eq e (lookupD s.globals.Characters c) _
      (by rw [hT]; exact hwi) (by rw [hL]; exact hwi), rfl, rfl, rfl, rfl, rfl, rfl, rfl, rfl⟩
  have hren : renderChar A e x0 s c =
      (appendGlyph A e (lookupD s.globals.Characters c)
        ⟨s.x, s.y, s.workingIndex,
          ⟨(s.globals.Characters.index c).2, s.globals.transforms, s.globals.letterMap⟩,
          s.calls, s.draws⟩).bind flushIfFull := by
    simp only [renderChar, if_neg hc10, if_neg hc32, index_fst]
  rw [hren, hs2]
  by_cases hfull : s.workingIndex + 1 = ARRAY_LIMIT
  · have hf := flushIfFull_full s2 (by rw [h2wi]; exact hfull)
      (by rw [h2t, List.length_set, hT]) (by rw [h2l, List.length_set, hL])
    refine ⟨s2, _, rfl, hf, hf, h2wi, h2c, h2d, h2tab, rfl, h2x, rfl, h2y, h2y, h2t, h2l,
      Or.inl ⟨hfull, rfl, ?_, ?_⟩⟩
    · simp only [h2c, h2wi]
    · simp only [h2d, h2wi]
  · have hf := flushIfFull_not_full s2 (by rw [h2wi]; exact hfull)
    exact ⟨s2, s2, rfl, hf, hf, h2wi, h2c, h2d, h2tab, rfl, h2x, rfl, h2y, h2y, h2t, h2l,
      Or.inr ⟨hfull, rfl⟩⟩

theorem reached_workingIndex_lt {A : Arith} (m0 : CharMap) (e x0 y0 : A.F)
    (pre : List GLchar) (s : RenderState A) (h : Reached m0 e x0 y0 pre s) :
    s.workingIndex < ARRAY_LIMIT := by
  rw [h.idx]
  exact Nat.mod_lt _ (by decide)

theorem reached_visible {A : Arith} (m0 : CharMap) (e x0 y0 : A.F) (pre : List GLchar)
    (s : RenderState A) (c : GLchar) (hv : visible c = true)
    (h : Reached m0 e x0 y0 pre s) :
    ∃ s1, renderChar A e x0 s c = some s1 ∧ Reached m0 e x0 y0 (pre ++ [c]) s1 := by
  have hc10 : c ≠ 10 := by
    intro hc; simp [visible, hc] at hv
  have hl : lookupD s.globals.Characters c = lookupD m0 c :=
    lookupD_of_table m0 _ pre h.table c
  have hlay : layout A m0 e x0 y0 (pre ++ [c]) =
      layout A m0 e x0 y0 pre ++ [entryAt A m0 e x0 y0 pre c] := by
    rw [layout_snoc]; simp [hv]
  have hwi0 := reached_workingIndex_lt m0 e x0 y0 pre s h
  obtain ⟨s2, s1, _, _, hs1, h2wi, hc2, hd2, h2tab, h1g, h2x, h1x, _, h1y, h2t, h2l, hcase⟩ :=
    renderChar_visible_eq e x0 s c hv h.lenT h.lenL hwi0
  have hT := h.lenT
  have hL := h.lenL
  have hidx := h.idx
  have hcnt := h.counts
  have htr := h.trans
  have hly := h.layers
  simp only [ARRAY_LIMIT] at hT hL hidx hcnt hwi0 hcase
  have hadv : advanceBy A s.globals.Characters e s.x c = penX A m0 e x0 (pre ++ [c]) := by
    simp only [penX_snoc, if_neg hc10, advanceBy, hl, h.penx]
  have htake : (s.globals.transforms.set s.workingIndex
      (placement A e s.x s.y (lookupD s.globals.Characters c))).take (s.workingIndex + 1)
      = s.globals.transforms.take s.workingIndex ++ [(entryAt A m0 e x0 y0 pre c).1] := by
    rw [take_set_succ _ _ _ (by omega)]
    simp [entryAt, h.penx, h.peny, hl]
  have htakeL : (s.globals.letterMap.set s.workingIndex
      (lookupD s.globals.Characters c).TextureID).take (s.workingIndex + 1)
      = s.globals.letterMap.take s.workingIndex ++ [(entryAt A m0 e x0 y0 pre c).2] := by
    rw [take_set_succ _ _ _ (by omega)]
    simp [entryAt, hl]
  refine ⟨s1, hs1, ?_⟩
  rcases hcase with ⟨hfull, h1wi, h1c, h1d⟩ | ⟨hfull, h12⟩
  · constructor
    · rw [h1g, h2t, List.length_set]; exact h.lenT
    · rw [h1g, h2l, List.length_set]; exact h.lenL
    · rw [h1g, h2tab]; exact table_step m0 _ pre h.table c
    · rw [h1x, h2x]; exact hadv
    · rw [h1y, h.peny, penY_snoc, if_neg hc10]
    · simp only [hlay, ARRAY_LIMIT, List.length_append, List.length_singleton, h1wi]
      omega
    · simp only [hlay, ARRAY_LIMIT, List.length_append, List.length_singleton, h1d,
        List.map_append, hcnt, List.map_cons, List.map_nil]
      have hq : ((layout A m0 e x0 y0 pre).length + 1) / 400
          = (layout A m0 e x0 y0 pre).length / 400 + 1 := by omega
      rw [hq, List.replicate_succ', hfull]
    · rw [h1c, h1d, h.calls]; simp
    · simp only [hlay, h1d, h1wi, List.map_append, List.flatten_append, List.map_cons,
        List.map_nil, List.flatten_cons, List.flatten_nil, List.append_nil, List.take_zero]
      rw [← htr, h2t, htake, List.append_assoc]
    · simp only [hlay, h1d, h1wi, List.map_append, List.flatten_append, List.map_cons,
        List.map_nil, List.flatten_cons, List.flatten_nil, List.append_nil, List.take_zero]
      rw [← hly, h2l, htakeL, List.append_assoc]
    · intro d hd
      rw [h1d] at hd
      simp only [List.mem_append, List.mem_singleton] at hd
      rcases hd with hd | hd
      · exact h.wf d hd
      · subst hd
        simp only [List.length_take, h2t, h2l, List.length_set, hT, hL]
        omega
  · subst h12
    constructor
    · rw [h2t, List.length_set]; exact h.lenT
    · rw [h2l, List.length_set]; exact h.lenL
    · rw [h2tab]; exact table_step m0 _ pre h.table c
    · rw [h2x]; exact hadv
    · rw [h1y, h.peny, penY_snoc, if_neg hc10]
    · simp only [hlay, ARRAY_LIMIT, List.length_append, List.length_singleton, h2wi]
      omega
    · simp only [hlay, ARRAY_LIMIT, List.length_append, List.length_singleton]
      have hq : ((layout A m0 e x0 y0 pre).length + 1) / 400
          = (layout A m0 e x0 y0 pre).length / 400 := by omega
      rw [hq]
      rw [hd2]; exact hcnt
    · rw [hc2, hd2]; exact h.calls
    · simp only [hlay, List.map_append, List.map_cons, List.map_nil, hd2, h2wi]
      rw [← htr, h2t, htake, List.append_assoc]
    · simp only [hlay, List.map_append, List.map_cons, List.map_nil, hd2, h2wi]
      rw [← hly, h2l, htakeL, List.append_assoc]
    · rw [hd2]; exact h.wf

theorem reached_step {A : Arith} (m0 : CharMap) (e x0 y0 : A.F) (pre : List GLchar)
    (s : RenderState A) (c : GLchar) (h : Reached m0 e x0 y0 pre s) :
    ∃ s1, renderChar A e x0 s c = some s1 ∧ Reached m0 e x0 y0 (pre ++ [c]) s1 := by
  by_cases h10 : c = 10
  · subst h10; exact reached_newline m0 e x0 y0 pre s h
  · by_cases h32 : c = 32
    · subst h32; exact reached_space m0 e x0 y0 pre s h
    · exact reached_visible m0 e x0 y0 pre s c (by simp [visible, h10, h32]) h

theorem reached_loop {A : Arith} (g : Globals A) (e x0 y0 : A.F)
    (hT : g.transforms.length = ARRAY_LIMIT) (hL : g.letterMap.length = ARRAY_LIMIT)
    (pre : List GLchar) :
    ∃ s, renderLoop A e x0 (initState g x0 y0) pre = some s ∧
      Reached g.Characters e x0 y0 pre s := by
  induction pre using List.reverseRecOn with
  | nil => exact ⟨_, rfl, reached_init g e x0 y0 hT hL⟩
  | append_singleton pre c ih =>
    obtain ⟨s, hs, hr⟩ := ih
    obtain ⟨s1, hs1, hr1⟩ := reached_step g.Characters e x0 y0 pre s c hr
    exact ⟨s1, by rw [renderLoop_append, hs]; simp [renderLoop, hs1], hr1⟩

/-- What one `RenderText` does, from any state whose buffers have `ARRAY_LIMIT`
entries: it returns, and its draws are the batches of the layout of the text. -/
theorem renderText_reached {A : Arith} (g : Globals A) (text : List GLchar)
    (x y sc : A.F) (color : vec3 A)
    (hT : g.transforms.length = ARRAY_LIMIT) (hL : g.letterMap.length = ARRAY_LIMIT) :
    ∃ s r, renderLoop A (A.div (A.mul sc (A.ofInt 48)) (A.ofInt 256)) x (initState g x y) text
        = some s ∧
      Reached g.Characters (A.div (A.mul sc (A.ofInt 48)) (A.ofInt 256)) x y text s ∧
      RenderText A g text x y sc color = some r ∧
      r.globals = s.globals ∧ r.x = s.x ∧ r.y = s.y ∧
      r.calls = s.calls ++ [s.workingIndex] ∧
      r.draws.map DrawCall.count = batchCounts (text.filter visible).length ∧
      (r.draws.map DrawCall.transforms).flatten =
        (layout A g.Characters (A.div (A.mul sc (A.ofInt 48)) (A.ofInt 256)) x y text).map
          Prod.fst ∧
      (r.draws.map DrawCall.letterMap).flatten =
        (layout A g.Characters (A.div (A.mul sc (A.ofInt 48)) (A.ofInt 256)) x y text).map
          Prod.snd ∧
      (∀ d ∈ r.draws, d.transforms.length = d.count ∧ d.letterMap.length = d.count) := by
  obtain ⟨s, hs, hr⟩ :=
    reached_loop g (A.div (A.mul sc (A.ofInt 48)) (A.ofInt 256)) x y hT hL text
  have hT1 := hr.lenT
  have hL1 := hr.lenL
  have hidx := hr.idx
  have hcnt := hr.counts
  have htr := hr.trans
  have hly := hr.layers
  rw [layout_length] at hidx hcnt
  simp only [ARRAY_LIMIT] at hT1 hL1 hidx hcnt
  have hwi : s.workingIndex < 400 := by omega
  by_cases h0 : s.workingIndex = 0
  · refine ⟨s, ⟨s.x, s.y, s.workingIndex, s.globals, s.calls ++ [s.workingIndex], s.draws⟩,
      hs, hr, ?_, rfl, rfl, rfl, rfl, ?_, ?_, ?_, ?_⟩
    · simp [RenderText, hs, finalFlush, TextRenderCall, h0]
    · have hm : (text.filter visible).length % 400 = 0 := by omega
      simp [batchCounts, ARRAY_LIMIT, hcnt, hm]
    · rw [← htr, h0]; simp
    · rw [← hly, h0]; simp
    · exact hr.wf
  · refine ⟨s, ⟨s.x, s.y, s.workingIndex, s.globals, s.calls ++ [s.workingIndex],
      s.draws ++ [⟨s.workingIndex, s.globals.transforms.take s.workingIndex,
        s.globals.letterMap.take s.workingIndex⟩]⟩, hs, hr, ?_, rfl, rfl, rfl, rfl,
        ?_, ?_, ?_, ?_⟩
    · have h1 : s.workingIndex ≤ s.globals.transforms.length := by omega
      have h2 : s.workingIndex ≤ s.globals.letterMap.length := by omega
      simp [RenderText, hs, finalFlush, TextRenderCall, h0, h1, h2]
    · have hm : (text.filter visible).length % 400 ≠ 0 := by omega
      simp [batchCounts, ARRAY_LIMIT, hcnt, hm, hidx]
    · rw [← htr]; simp
    · rw [← hly]; simp
    · intro d hd
      simp only [List.mem_append, List.mem_singleton] at hd
      rcases hd with hd | hd
      · exact hr.wf d hd
      · subst hd
        simp only [List.length_take]
        omega

/-- The entries `RenderText` uploads for a visible character `c` between `pre`
and `post`, and the pen it ends with. -/
theorem renderText_entry {A : Arith} (g : Globals A) (pre post : List GLchar) (c : GLchar)
    (x y sc : A.F) (color : vec3 A)
    (hT : g.transforms.length = ARRAY_LIMIT) (hL : g.letterMap.length = ARRAY_LIMIT)
    (hv : visible c = true) :
    ∃ r, RenderText A g (pre ++ c :: post) x y sc color = some r ∧
      (r.draws.map DrawCall.transforms).flatten[(pre.filter visible).length]? =
        some (placement A (A.div (A.mul sc (A.ofInt 48)) (A.ofInt 256))
          (penX A g.Characters (A.div (A.mul sc (A.ofInt 48)) (A.ofInt 256)) x pre)
          (penY A g.Characters (A.div (A.mul sc (A.ofInt 48)) (A.ofInt 256)) y pre)
          (lookupD g.Characters c)) ∧
      (r.draws.map DrawCall.letterMap).flatten[(pre.filter visible).length]? =
        some (lookupD g.Characters c).TextureID ∧
      r.x = penX A g.Characters (A.div (A.mul sc (A.ofInt 48)) (A.ofInt 256)) x
        (pre ++ c :: post) ∧
      r.y = penY A g.Characters (A.div (A.mul sc (A.ofInt 48)) (A.ofInt 256)) y
        (pre ++ c :: post) := by
  obtain ⟨s, r, _, hr, hrt, _, hx, hy, _, _, htr, hly, _⟩ :=
    renderText_reached g (pre ++ c :: post) x y sc color hT hL
  have hent := layout_entry g.Characters (A.div (A.mul sc (A.ofInt 48)) (A.ofInt 256)) x y
    pre post c hv
  refine ⟨r, hrt, ?_, ?_, by rw [hx, hr.penx], by rw [hy, hr.peny]⟩
  · rw [htr, List.getElem?_map, hent]
    rfl
  · rw [hly, List.getElem?_map, hent]
    rfl

theorem loadGlyphs_range (face : Face) (n : Nat) (c : Nat) :
    (List.range n).foldl (loadGlyph face) (fun _ => none) c =
      if c < n then (face c).map (mkCharacter c) else none := by
  induction n generalizing c with
  | zero => simp
  | succ n ih =>
    rw [List.range_succ, List.foldl_append]
    simp only [List.foldl_cons, List.foldl_nil]
    rw [funext ih]
    unfold loadGlyph
    cases hf : face n with
    | none =>
      by_cases h1 : c < n
      · simp [h1, Nat.lt_succ_of_lt h1]
      · by_cases h2 : c = n
        · subst h2; simp [hf]
        · have h3 : ¬ c < n + 1 := by omega
          simp [h1, h3]
    | some g =>
      simp only [CharMap.insert]
      by_cases h2 : c = n
      · subst h2; simp [hf]
      · by_cases h1 : c < n
        · simp [h1, h2, Nat.lt_succ_of_lt h1]
        · have h3 : ¬ c < n + 1 := by omega
          simp [h1, h2, h3]

theorem loadGlyphs_eq (face : Face) (c : Nat) :
    loadGlyphs face c = if c < 128 then (face c).map (mkCharacter c) else none :=
  loadGlyphs_range face 128 c

theorem lookupD_loadGlyphs_textureID (face : Face) (c : Nat) :
    0 ≤ (lookupD (loadGlyphs face) c).TextureID ∧
      (lookupD (loadGlyphs face) c).TextureID ≤ 127 := by
  unfold lookupD
  rw [loadGlyphs_eq]
  by_cases h : c < 128
  · cases hf : face c with
    | none => simp [h]
    | some g =>
      simp only [h, if_true, Option.map_some', Option.getD_some, mkCharacter]
      omega
  · simp [h]

theorem lookupD_startup (A : Arith) (face : Face) (c : Nat) (slot : GlyphSlot)
    (hc : c < 128) (hf : face c = some slot) :
    lookupD (startup A face).Characters c = mkCharacter c slot := by
  simp [lookupD, startup, loadGlyphs_eq, hc, hf]

theorem batchCounts_sum (n : Nat) : (batchCounts n).sum = n := by
  unfold batchCounts
  simp only [ARRAY_LIMIT]
  have h := Nat.div_add_mod n 400
  by_cases hm : n % 400 = 0
  · simp [hm]; omega
  · simp [hm]; omega

theorem batchCounts_length (n : Nat) : (batchCounts n).length = (n + 399) / 400 := by
  unfold batchCounts
  simp only [ARRAY_LIMIT]
  by_cases hm : n % 400 = 0
  · simp [hm]; omega
  · simp [hm]; omega

theorem batchCounts_mem (n k : Nat) (h : k ∈ batchCounts n) : k ≠ 0 ∧ k ≤ ARRAY_LIMIT := by
  unfold batchCounts at h
  simp only [ARRAY_LIMIT, List.mem_append] at h ⊢
  rcases h with h | h
  · rw [(List.mem_replicate.mp h).2]
    exact ⟨by decide, Nat.le_refl _⟩
  · by_cases hm : n % 400 = 0
    · simp [hm] at h
    · simp [hm] at h
      omega

theorem renderChar_letterMap_range {A : Arith} (e x0 : A.F) (s s1 : RenderState A)
    (c : GLchar)
    (hT : s.globals.transforms.length = ARRAY_LIMIT)
    (hL : s.globals.letterMap.length = ARRAY_LIMIT)
    (hwi : s.workingIndex < ARRAY_LIMIT)
    (h : renderChar A e x0 s c = some s1)
    (hr : ∀ v ∈ s.globals.letterMap, 0 ≤ v ∧ v ≤ 127)
    (hc : 0 ≤ (lookupD s.globals.Characters c).TextureID ∧
      (lookupD s.globals.Characters c).TextureID ≤ 127) :
    ∀ v ∈ s1.globals.letterMap, 0 ≤ v ∧ v ≤ 127 := by
  by_cases h10 : c = 10
  · subst h10
    simp only [renderChar, if_true, Option.some.injEq] at h
    rw [← h]; exact hr
  · by_cases h32 : c = 32
    · subst h32
      simp only [renderChar, if_neg h10, if_true, Option.some.injEq] at h
      rw [← h]; exact hr
    · obtain ⟨s2, s1', _, _, hs1, _, _, _, _, h1g, _, _, _, _, _, hl, _⟩ :=
        renderChar_visible_eq e x0 s c (by simp [visible, h10, h32]) hT hL hwi
      rw [h] at hs1
      have heq : s1 = s1' := Option.some.inj hs1
      subst heq
      intro v hv
      rw [h1g, hl] at hv
      rcases List.mem_or_eq_of_mem_set hv with hm | hm
      · exact hr v hm
      · rw [hm]; exact hc

theorem startup_loop_range (A : Arith) (face : Face) (e x0 y0 : A.F) (pre : List GLchar) :
    ∃ s, renderLoop A e x0 (initState (startup A face) x0 y0) pre = some s ∧
      Reached (startup A face).Characters e x0 y0 pre s ∧
      ∀ v ∈ s.globals.letterMap, 0 ≤ v ∧ v ≤ 127 := by
  induction pre using List.reverseRecOn with
  | nil =>
    refine ⟨_, rfl, reached_init (startup A face) e x0 y0 (by simp [startup])
      (by simp [startup]), ?_⟩
    intro v hv
    simp only [initState, startup] at hv
    rw [List.eq_of_mem_replicate hv]
    decide
  | append_singleton pre c ih =>
    obtain ⟨s, hs, hr, hrange⟩ := ih
    obtain ⟨s1, hs1, hr1⟩ := reached_step (startup A face).Characters e x0 y0 pre s c hr
    refine ⟨s1, by rw [renderLoop_append, hs]; simp [renderLoop, hs1], hr1, ?_⟩
    have hlk : lookupD s.globals.Characters c = lookupD (startup A face).Characters c :=
      lookupD_of_table _ _ pre hr.table c
    exact renderChar_letterMap_range e x0 s s1 c hr.lenT hr.lenL
      (reached_workingIndex_lt _ _ _ _ _ _ hr) hs1 hrange
      (by rw [hlk]; exact lookupD_loadGlyphs_textureID face c)

theorem penX_congr {A : Arith} (m m1 : CharMap) (h : ∀ c, lookupD m c = lookupD m1 c)
    (e x0 : A.F) (pre : List GLchar) : penX A m e x0 pre = penX A m1 e x0 pre := by
  have hfun : advanceBy A m e = advanceBy A m1 e := by
    funext px k
    simp only [advanceBy, h k]
  simp only [penX, hfun]

theorem penY_congr {A : Arith} (m m1 : CharMap) (h : ∀ c, lookupD m c = lookupD m1 c)
    (e y0 : A.F) (pre : List GLchar) : penY A m e y0 pre = penY A m1 e y0 pre := by
  simp only [penY, h 10]

theorem layoutFrom_congr {A : Arith} (m m1 : CharMap) (h : ∀ c, lookupD m c = lookupD m1 c)
    (e x0 y0 : A.F) (done text : List GLchar) :
    layoutFrom A m e x0 y0 done text = layoutFrom A m1 e x0 y0 done text := by
  induction text generalizing done with
  | nil => simp [layoutFrom]
  | cons c cs ih =>
    simp only [layoutFrom, ih, entryAt, penX_congr m m1 h, penY_congr m m1 h, h c]

theorem draws_ext {A : Arith} (ds ds1 : List (DrawCall A))
    (hc : ds.map DrawCall.count = ds1.map DrawCall.count)
    (hw : ∀ d ∈ ds, d.transforms.length = d.count ∧ d.letterMap.length = d.count)
    (hw1 : ∀ d ∈ ds1, d.transforms.length = d.count ∧ d.letterMap.length = d.count)
    (ht : (ds.map DrawCall.transforms).flatten = (ds1.map DrawCall.transforms).flatten)
    (hl : (ds.map DrawCall.letterMap).flatten = (ds1.map DrawCall.letterMap).flatten) :
    ds = ds1 := by
  induction ds generalizing ds1 with
  | nil =>
    cases ds1 with
    | nil => rfl
    | cons d1 r1 => simp at hc
  | cons d r ih =>
    cases ds1 with
    | nil => simp at hc
    | cons d1 r1 =>
      simp only [List.map_cons, List.cons.injEq] at hc
      simp only [List.map_cons, List.flatten_cons] at ht hl
      have hd := hw d (List.mem_cons_self _ _)
      have hd1 := hw1 d1 (List.mem_cons_self _ _)
      have ht2 := List.append_inj ht (by rw [hd.1, hd1.1, hc.1])
      have hl2 := List.append_inj hl (by rw [hd.2, hd1.2, hc.1])
      have hrest := ih r1 hc.2 (fun a ha => hw a (List.mem_cons_of_mem _ ha))
        (fun a ha => hw1 a (List.mem_cons_of_mem _ ha)) ht2.2 hl2.2
      have hdd : d = d1 := by
        cases d; cases d1
        simp only [DrawCall.mk.injEq]
        exact ⟨hc.1, ht2.1, hl2.1⟩
      rw [hdd, hrest]

/-- Two runs of `RenderText` on tables with the same lookups, from buffers of
`ARRAY_LIMIT` entries, issue the same draws and end with the same pen. -/
theorem renderText_congr {A : Arith} (g g1 : Globals A) (text : List GLchar)
    (x y sc : A.F) (color : vec3 A)
    (hT : g.transforms.length = ARRAY_LIMIT) (hL : g.letterMap.length = ARRAY_LIMIT)
    (hT1 : g1.transforms.length = ARRAY_LIMIT) (hL1 : g1.letterMap.length = ARRAY_LIMIT)
    (hlk : ∀ c, lookupD g1.Characters c = lookupD g.Characters c) :
    ∃ r r1, RenderText A g text x y sc color = some r ∧
      RenderText A g1 text x y sc color = some r1 ∧
      r1.draws = r.draws ∧ r1.calls = r.calls ∧ r1.x = r.x ∧ r1.y = r.y := by
  obtain ⟨s, r, _, hr, hrt, _, hx, hy, hcl, hcnt, htr, hly, hwf⟩ :=
    renderText_reached g text x y sc color hT hL
  obtain ⟨s1, r1, _, hr1, hrt1, _, hx1, hy1, hcl1, hcnt1, htr1, hly1, hwf1⟩ :=
    renderText_reached g1 text x y sc color hT1 hL1
  have hlay : layout A g1.Characters (A.div (A.mul sc (A.ofInt 48)) (A.ofInt 256)) x y text =
      layout A g.Characters (A.div (A.mul sc (A.ofInt 48)) (A.ofInt 256)) x y text :=
    layoutFrom_congr _ _ hlk _ _ _ [] text
  rw [hlay] at htr1 hly1
  have heq : r1.draws = r.draws :=
    draws_ext r1.draws r.draws (by rw [hcnt, hcnt1]) hwf1 hwf
      (by rw [htr, htr1]) (by rw [hly, hly1])
  refine ⟨r, r1, hrt, hrt1, heq, ?_, ?_, ?_⟩
  · rw [hcl, hcl1, hr.calls, hr1.calls, hr.counts, hr1.counts, hr.idx, hr1.idx, hlay]
  · rw [hx, hx1, hr.penx, hr1.penx, penX_congr _ _ hlk]
  · rw [hy, hy1, hr.peny, hr1.peny, penY_congr _ _ hlk]

/-- In exact arithmetic `translate(x, y, 0) * scale(a, a, 0)` maps the point
`(u, v, 0, 1)` to `(x + a u, y + a v, 0, 1)`. -/
theorem exact_translate_scale_mulVec (xpos ypos a u v : ℚ) :
    ((translate (mat4.identity exact) ⟨xpos, ypos, 0⟩).mul
        (scale (mat4.identity exact) ⟨a, a, 0⟩)).mulVec ⟨u, v, 0, 1⟩ =
      ⟨xpos + a * u, ypos + a * v, 0, 1⟩ := by
  simp only [translate, scale, mat4.mul, mat4.mulVec, mat4.identity,
    vec4.smul, vec4.add, vec4.mk.injEq]
  refine ⟨?_, ?_, ?_, ?_⟩ <;> simp <;> ring

theorem penY_of_no_newline {A : Arith} (m : CharMap) (e y0 : A.F) (pre : List GLchar)
    (h : pre.count 10 = 0) : penY A m e y0 pre = y0 := by
  simp [penY, h]

theorem penX_nil {A : Arith} (m : CharMap) (e x0 : A.F) : penX A m e x0 [] = x0 := rfl

/-! ## The program on concrete inputs, in IEEE arithmetic -/

theorem ieee_eff1 : FP.toRat eff1 = 3 / 16 := by decide!

theorem ieee_newline_empty_bitmap :
    penY ieee (startup ieee demoFace).Characters eff1 (ieee.ofInt 100) [65, 66, 10] =
      ieee.ofInt 100 := by decide!

theorem ieee_penX_after_newline :
    penX ieee (startup ieee demoFace).Characters eff1 (ieee.ofInt 0) [65, 66, 10] =
      ieee.ofInt 0 := by decide!

theorem ieee_penY_end :
    penY ieee (startup ieee demoFace).Characters eff1 (ieee.ofInt 100) [65, 66, 10, 67, 68] =
      ieee.ofInt 100 := by decide!

theorem ieee_lookup_demo (c : Nat) (hc : c < 128) (h10 : c ≠ 10) (h32 : c ≠ 32) :
    lookupD (startup ieee demoFace).Characters c = ⟨(c : Int), (120, 180), (8, 170), 3840⟩ := by
  rw [lookupD_startup ieee demoFace c ⟨120, 180, 8, 170, 3840⟩ hc (by simp [demoFace, h10, h32])]
  simp [mkCharacter]

theorem ieee_box_second_line :
    penY ieee (startup ieee boxFace).Characters eff1 (ieee.ofInt 1040) [65, 66, 10] =
      FP.fin false (8158259 <<< 136) := by decide!

theorem ieee_box_second_line_value :
    FP.toRat (FP.fin false (8158259 <<< 136)) = 8158259 / 8192 := by decide!

theorem ieee_three_advances :
    penX ieee (startup ieee demoFace).Characters eff13 (ieee.ofInt 0) [65, 65, 65] =
      FP.fin false (11501567 <<< 131) := by decide!

theorem ieee_three_advances_value :
    FP.toRat (FP.fin false (11501567 <<< 131)) = 11501567 / 262144 := by decide!

theorem ieee_scale13_value : FP.toRat scale13 = 5452595 / 4194304 := by decide!

theorem ieee_eff13_value : FP.toRat eff13 = 16357785 / 67108864 := by decide!

theorem ieee_far_origin :
    penX ieee (startup ieee demoFace).Characters eff1 (ieee.ofInt 1000000000) [65] =
      ieee.ofInt 1000000000 := by decide!

theorem ieee_far_origin_value : FP.toRat (ieee.ofInt 1000000000) = 1000000000 := by decide!

theorem ieee_hundred_value : FP.toRat (ieee.ofInt 100) = 100 := by decide!

theorem ieee_placement_A :
    (placement ieee eff1 (ieee.ofInt 0) (ieee.ofInt 0) ⟨65, (120, 180), (8, 170), 3840⟩).c0.x
        = ieee.ofInt 48 ∧
    (placement ieee eff1 (ieee.ofInt 0) (ieee.ofInt 0) ⟨65, (120, 180), (8, 170), 3840⟩).c1.y
        = ieee.ofInt 48 ∧
    FP.toRat (placement ieee eff1 (ieee.ofInt 0) (ieee.ofInt 0)
      ⟨65, (120, 180), (8, 170), 3840⟩).c3.x = 8 * 48 / 256 ∧
    FP.toRat (placement ieee eff1 (ieee.ofInt 0) (ieee.ofInt 0)
      ⟨65, (120, 180), (8, 170), 3840⟩).c3.y = -((256 - 170) * 48 / 256) ∧
    (placement ieee eff1 (ieee.ofInt 0) (ieee.ofInt 0) ⟨65, (120, 180), (8, 170), 3840⟩).c3.z
        = ieee.ofInt 0 ∧
    (placement ieee eff1 (ieee.ofInt 0) (ieee.ofInt 0) ⟨65, (120, 180), (8, 170), 3840⟩).c3.w
        = ieee.ofInt 1 := by decide!

theorem ieee_box_second_line_iterate :
    Nat.iterate
        (fun py => ieee.toFloat (ieee.subD (ieee.toDouble py)
          (ieee.mulD (ieee.mulD (ieee.ofIntD 181) ieee.lit13) (ieee.toDouble eff1))))
        (([65, 66, 10] : List GLchar).count 10) (ieee.ofInt 1040)
      = FP.fin false (8158259 <<< 136) := by decide!

theorem ieee_closed_forms_differ :
    FP.toRat (FP.fin false (11501567 <<< 131)) ≠ 0 + FP.toRat eff13 * (60 + 60 + 60) ∧
    FP.toRat (FP.fin false (11501567 <<< 131)) ≠
      0 + FP.toRat scale13 * 48 / 256 * (60 + 60 + 60) ∧
    FP.toRat (FP.fin false (11501567 <<< 131)) ≠ 0 + 13 / 10 * 48 / 256 * (60 + 60 + 60) := by
  rw [ieee_three_advances_value, ieee_eff13_value, ieee_scale13_value]
  norm_num

theorem ieee_far_origin_differs :
    FP.toRat (ieee.ofInt 1000000000) ≠ 1000000000 + FP.toRat eff1 * 60 := by
  rw [ieee_far_origin_value, ieee_eff1]
  norm_num

theorem ieee_ofInt_zero : ieee.ofInt 0 = FP.fin false 0 := by decide!

theorem ieee_round_zero : roundTo binary32 false 0 binary32.scale = FP.fin false 0 := by decide!

/-- In IEEE arithmetic the zero advance of a code without record is `+0` for every
finite effective scale that is not negative. -/
theorem ieee_zero_mul (m : Nat) :
    ieee.mul (ieee.ofInt 0) (FP.fin false m) = ieee.ofInt 0 := by
  rw [ieee_ofInt_zero]
  simp only [ieee, FP.mul, Nat.zero_mul, Bool.xor_false]
  exact ieee_round_zero

/-- In IEEE arithmetic adding `+0` leaves every finite `float` other than `-0`
unchanged: `a` is the magnitude of a `float` when rounding leaves it unchanged and
it is below the overflow threshold. -/
theorem ieee_add_zero (s : Bool) (a : Nat) (hz : s = true → a ≠ 0)
    (hr : roundMag binary32 a 0 = a)
    (hb : ¬ binary32.emax + binary32.scale < bitLength a) :
    ieee.add (FP.fin s a) (ieee.ofInt 0) = FP.fin s a := by
  rw [ieee_ofInt_zero]
  have hround : roundTo binary32 s a 0 = FP.fin s a := by
    unfold roundTo
    rw [hr, if_neg hb]
  cases s with
  | false =>
    simp only [ieee, FP.add, if_true, Nat.add_zero]
    exact hround
  | true =>
    have ha : a ≠ 0 := hz rfl
    have hpos : 0 < a := Nat.pos_of_ne_zero ha
    simp only [ieee, FP.add, Nat.sub_zero]
    rw [if_neg (by decide), if_neg ha, if_pos hpos]
    exact hround

/-! ## The claims -/

/-- C1: from any state whose two batch buffers have `ARRAY_LIMIT` entries, and for
every text and glyph table, `RenderText` returns, and the layer indices uploaded by
its draws (the first `count` of each, concatenated in issue order) are exactly the
`TextureID`s looked up for the visible characters of the text, in text order; and
the instance counts add up to the number of visible characters. -/
theorem C1_visible_characters_emitted_once_in_order (A : Arith)
    (g : Globals A) (text : List GLchar) (x y scale_ : A.F) (color : vec3 A)
    (hT : g.transforms.length = ARRAY_LIMIT) (hL : g.letterMap.length = ARRAY_LIMIT) :
    ∃ r, RenderText A g text x y scale_ color = some r ∧
      (r.draws.map (fun d => d.letterMap.take d.count)).flatten =
        (text.filter visible).map (fun c => (lookupD g.Characters c).TextureID) ∧
      (r.draws.map DrawCall.count).sum = (text.filter visible).length := by
  obtain ⟨s, r, _, _, hr, _, _, _, _, hcnt, _, hly, hwf⟩ :=
    renderText_reached g text x y scale_ color hT hL
  refine ⟨r, hr, ?_, ?_⟩
  · have hmap : r.draws.map (fun d => d.letterMap.take d.count) =
        r.draws.map DrawCall.letterMap := by
      apply List.map_congr_left
      intro d hd
      have h := (hwf d hd).2
      simp [← h]
    rw [hmap, hly, layout_snd]
  · rw [hcnt, batchCounts_sum]

/-- C1 at a concrete input: the text `Hi !` followed by a newline, on the startup
state of the example rasterizer. -/
theorem C1_visible_characters_emitted_once_in_order_witness :
    (startup ieee demoFace).transforms.length = ARRAY_LIMIT ∧
    (startup ieee demoFace).letterMap.length = ARRAY_LIMIT ∧
    ∃ r, RenderText ieee (startup ieee demoFace) [72, 105, 32, 33, 10]
        (ieee.ofInt 0) (ieee.ofInt 0) (ieee.ofInt 1) green = some r ∧
      (r.draws.map (fun d => d.letterMap.take d.count)).flatten =
        ([72, 105, 32, 33, 10].filter visible).map
          (fun c => (lookupD (startup ieee demoFace).Characters c).TextureID) ∧
      (r.draws.map DrawCall.count).sum = ([72, 105, 32, 33, 10].filter visible).length :=
  ⟨by simp [startup], by simp [startup],
    C1_visible_characters_emitted_once_in_order ieee (startup ieee demoFace)
      [72, 105, 32, 33, 10] (ieee.ofInt 0) (ieee.ofInt 0) (ieee.ofInt 1) green
      (by simp [startup]) (by simp [startup])⟩

/-- C2: for a text with `n` visible characters the instance counts of the draws of
one `RenderText` are `n / 400` times 400 followed by `n % 400` when that is not
zero; so there are `ceil (n / 400)` draws, no trailing empty one, and a text of
only spaces and newlines issues no draw. -/
theorem C2_draw_call_instance_counts (A : Arith)
    (g : Globals A) (text : List GLchar) (x y scale_ : A.F) (color : vec3 A)
    (hT : g.transforms.length = ARRAY_LIMIT) (hL : g.letterMap.length = ARRAY_LIMIT) :
    ∃ r, RenderText A g text x y scale_ color = some r ∧
      r.draws.map DrawCall.count =
        List.replicate ((text.filter visible).length / 400) 400 ++
          (if (text.filter visible).length % 400 ≠ 0
            then [(text.filter visible).length % 400] else []) ∧
      r.draws.length = ((text.filter visible).length + 399) / 400 ∧
      (∀ d ∈ r.draws, d.count ≠ 0) ∧
      ((∀ c ∈ text, c = 10 ∨ c = 32) → r.draws = []) := by
  obtain ⟨s, r, _, _, hr, _, _, _, _, hcnt, _, _, _⟩ :=
    renderText_reached g text x y scale_ color hT hL
  have hlen : r.draws.length = ((text.filter visible).length + 399) / 400 := by
    have h := congrArg List.length hcnt
    rw [List.length_map, batchCounts_length] at h
    exact h
  refine ⟨r, hr, hcnt, hlen, ?_, ?_⟩
  · intro d hd
    have hmem : d.count ∈ batchCounts (text.filter visible).length := by
      rw [← hcnt]; exact List.mem_map_of_mem _ hd
    exact (batchCounts_mem _ _ hmem).1
  · intro hall
    have hnil : text.filter visible = [] := by
      rw [List.filter_eq_nil_iff]
      intro c hc
      rcases hall c hc with h | h <;> simp [visible, h]
    have h0 : r.draws.length = 0 := by rw [hlen, hnil]; rfl
    exact List.length_eq_zero.mp h0

/-- C2 at a concrete input: a text of two spaces and a newline. -/
theorem C2_draw_call_instance_counts_witness :
    (startup ieee demoFace).transforms.length = ARRAY_LIMIT ∧
    (startup ieee demoFace).letterMap.length = ARRAY_LIMIT ∧
    ∃ r, RenderText ieee (startup ieee demoFace) [32, 10, 32]
        (ieee.ofInt 0) (ieee.ofInt 0) (ieee.ofInt 1) green = some r ∧
      r.draws.map DrawCall.count =
        List.replicate (([32, 10, 32].filter visible).length / 400) 400 ++
          (if ([32, 10, 32].filter visible).length % 400 ≠ 0
            then [([32, 10, 32].filter visible).length % 400] else []) ∧
      r.draws.length = (([32, 10, 32].filter visible).length + 399) / 400 ∧
      (∀ d ∈ r.draws, d.count ≠ 0) ∧
      ((∀ c ∈ [32, 10, 32], c = 10 ∨ c = 32) → r.draws = []) :=
  ⟨by simp [startup], by simp [startup],
    C2_draw_call_instance_counts ieee (startup ieee demoFace) [32, 10, 32]
      (ieee.ofInt 0) (ieee.ofInt 0) (ieee.ofInt 1) green
      (by simp [startup]) (by simp [startup])⟩

/-- C3 as stated fails: in IEEE arithmetic, on the startup state of the example
rasterizer (whose newline glyph has an empty bitmap), `RenderText` of the text
`AB`, newline, `CD` with origin (0, 100) and scale 1 lays out `C`, the third
entry, with pen (0, 100), exactly where it laid out `A`, and ends with pen y 100,
not `100 - 1.3 * (256 * (1 * 48 / 256))`. -/
theorem C3_line_advance_counterexample :
    ∃ r, RenderText ieee (startup ieee demoFace) [65, 66, 10, 67, 68]
        (ieee.ofInt 0) (ieee.ofInt 100) (ieee.ofInt 1) green = some r ∧
      (r.draws.map DrawCall.transforms).flatten[2]? =
        some (placement ieee eff1 (ieee.ofInt 0) (ieee.ofInt 100)
          ⟨67, (120, 180), (8, 170), 3840⟩) ∧
      (r.draws.map DrawCall.transforms).flatten[0]? =
        some (placement ieee eff1 (ieee.ofInt 0) (ieee.ofInt 100)
          ⟨65, (120, 180), (8, 170), 3840⟩) ∧
      r.y = ieee.ofInt 100 ∧
      FP.toRat r.y = 100 ∧
      FP.toRat r.y ≠ 100 - 13 / 10 * (256 * (1 * 48 / 256)) := by
  obtain ⟨r, hrt, htr, _, _, hy⟩ :=
    renderText_entry (startup ieee demoFace) [65, 66, 10] [68] 67
      (ieee.ofInt 0) (ieee.ofInt 100) (ieee.ofInt 1) green
      (by simp [startup]) (by simp [startup]) (by decide)
  obtain ⟨r0, hrt0, htr0, _, _, _⟩ :=
    renderText_entry (startup ieee demoFace) [] [66, 10, 67, 68] 65
      (ieee.ofInt 0) (ieee.ofInt 100) (ieee.ofInt 1) green
      (by simp [startup]) (by simp [startup]) (by decide)
  have e1 : ieee.div (ieee.mul (ieee.ofInt 1) (ieee.ofInt 48)) (ieee.ofInt 256) = eff1 := rfl
  have hl : ([65, 66, 10] ++ 67 :: [68] : List GLchar) = [65, 66, 10, 67, 68] := rfl
  have hl0 : ([] ++ 65 :: [66, 10, 67, 68] : List GLchar) = [65, 66, 10, 67, 68] := rfl
  have hk : (List.filter visible [65, 66, 10]).length = 2 := by decide
  have hk0 : (List.filter visible ([] : List GLchar)).length = 0 := by decide
  have hx0 : penX ieee (startup ieee demoFace).Characters eff1 (ieee.ofInt 0) [] =
      ieee.ofInt 0 := rfl
  have hy0 : penY ieee (startup ieee demoFace).Characters eff1 (ieee.ofInt 100) [] =
      ieee.ofInt 100 := rfl
  rw [hl] at hrt
  rw [hl0] at hrt0
  rw [e1, hl, ieee_penY_end] at hy
  rw [e1, hk, ieee_penX_after_newline, ieee_newline_empty_bitmap,
    ieee_lookup_demo 67 (by decide) (by decide) (by decide)] at htr
  rw [e1, hk0, hx0, hy0, ieee_lookup_demo 65 (by decide) (by decide) (by decide)] at htr0
  have hrr : r0 = r := Option.some.inj (hrt0.symm.trans hrt)
  subst hrr
  refine ⟨r0, hrt, htr, htr0, hy, ?_, ?_⟩
  · rw [hy]; exact ieee_hundred_value
  · rw [hy, ieee_hundred_value]; norm_num

/-- C3, amended: each newline processed by `RenderText` replaces the pen y by
`(float) (y - H * 1.3 * effective_scale)`, computed in `double`, where
`effective_scale` is the `float` value of `scale * 48 / 256` and `H` is the bitmap
height `Size.y` of the record looked up for the newline character itself (0 when
it has none), not the constant 256.  So a visible character `c` that follows `pre`
is laid out with the pen y obtained from the origin y by one such step per newline
of `pre`, and `RenderText` ends with the pen y obtained by one step per newline of
the text. -/
theorem C3_line_advance_uses_newline_glyph_height (A : Arith)
    (g : Globals A) (pre post : List GLchar) (c : GLchar) (x y scale_ : A.F) (color : vec3 A)
    (hT : g.transforms.length = ARRAY_LIMIT) (hL : g.letterMap.length = ARRAY_LIMIT)
    (hv : visible c = true) :
    ∃ r e H pen_y,
      RenderText A g (pre ++ c :: post) x y scale_ color = some r ∧
      e = A.div (A.mul scale_ (A.ofInt 48)) (A.ofInt 256) ∧
      H = (lookupD g.Characters 10).Size.2 ∧
      pen_y = Nat.iterate
        (fun py => A.toFloat (A.subD (A.toDouble py)
          (A.mulD (A.mulD (A.ofIntD H) A.lit13) (A.toDouble e))))
        (pre.count 10) y ∧
      (r.draws.map DrawCall.transforms).flatten[(pre.filter visible).length]? =
        some ((translate (mat4.identity A)
            ⟨A.add (penX A g.Characters e x pre)
                (A.mul (A.ofInt (lookupD g.Characters c).Bearing.1) e),
              A.sub pen_y (A.mul (A.ofInt (256 - (lookupD g.Characters c).Bearing.2)) e),
              A.ofInt 0⟩).mul
          (scale (mat4.identity A)
            ⟨A.mul (A.ofInt 256) e, A.mul (A.ofInt 256) e, A.ofInt 0⟩)) ∧
      r.y = Nat.iterate
        (fun py => A.toFloat (A.subD (A.toDouble py)
          (A.mulD (A.mulD (A.ofIntD H) A.lit13) (A.toDouble e))))
        ((pre ++ c :: post).count 10) y := by
  obtain ⟨r, hrt, htr, _, _, hy⟩ :=
    renderText_entry g pre post c x y scale_ color hT hL hv
  exact ⟨r, _, _, _, hrt, rfl, rfl, rfl, htr, hy⟩

/-- C3, amended, at a concrete input, in IEEE arithmetic: the text `AB`, newline,
`CD` at origin (0, 1040) with scale 1 on the startup state of the rasterizer whose
newline glyph is 181 pixels high; the pen y of the second line is
`8158259 / 8192 = 995.8812255859375`. -/
theorem C3_line_advance_uses_newline_glyph_height_witness :
    (startup ieee boxFace).transforms.length = ARRAY_LIMIT ∧
    (startup ieee boxFace).letterMap.length = ARRAY_LIMIT ∧
    visible 67 = true ∧
    (lookupD (startup ieee boxFace).Characters 10).Size.2 = 181 ∧
    Nat.iterate
        (fun py => ieee.toFloat (ieee.subD (ieee.toDouble py)
          (ieee.mulD (ieee.mulD (ieee.ofIntD 181) ieee.lit13) (ieee.toDouble eff1))))
        (([65, 66, 10] : List GLchar).count 10) (ieee.ofInt 1040)
      = FP.fin false (8158259 <<< 136) ∧
    FP.toRat (FP.fin false (8158259 <<< 136)) = 8158259 / 8192 ∧
    ∃ r e H pen_y,
      RenderText ieee (startup ieee boxFace) ([65, 66, 10] ++ 67 :: [68])
        (ieee.ofInt 0) (ieee.ofInt 1040) (ieee.ofInt 1) green = some r ∧
      e = ieee.div (ieee.mul (ieee.ofInt 1) (ieee.ofInt 48)) (ieee.ofInt 256) ∧
      H = (lookupD (startup ieee boxFace).Characters 10).Size.2 ∧
      pen_y = Nat.iterate
        (fun py => ieee.toFloat (ieee.subD (ieee.toDouble py)
          (ieee.mulD (ieee.mulD (ieee.ofIntD H) ieee.lit13) (ieee.toDouble e))))
        (([65, 66, 10] : List GLchar).count 10) (ieee.ofInt 1040) ∧
      (r.draws.map DrawCall.transforms).flatten[([65, 66, 10].filter visible).length]? =
        some ((translate (mat4.identity ieee)
            ⟨ieee.add (penX ieee (startup ieee boxFace).Characters e (ieee.ofInt 0) [65, 66, 10])
                (ieee.mul (ieee.ofInt (lookupD (startup ieee boxFace).Characters 67).Bearing.1) e),
              ieee.sub pen_y (ieee.mul
                (ieee.ofInt (256 - (lookupD (startup ieee boxFace).Characters 67).Bearing.2)) e),
              ieee.ofInt 0⟩).mul
          (scale (mat4.identity ieee)
            ⟨ieee.mul (ieee.ofInt 256) e, ieee.mul (ieee.ofInt 256) e, ieee.ofInt 0⟩)) ∧
      r.y = Nat.iterate
        (fun py => ieee.toFloat (ieee.subD (ieee.toDouble py)
          (ieee.mulD (ieee.mulD (ieee.ofIntD H) ieee.lit13) (ieee.toDouble e))))
        (([65, 66, 10] ++ 67 :: [68]).count 10) (ieee.ofInt 1040) :=
  ⟨by simp [startup], by simp [startup], by decide, by decide!,
    ieee_box_second_line_iterate, ieee_box_second_line_value,
    C3_line_advance_uses_newline_glyph_height ieee (startup ieee boxFace) [65, 66, 10] [68] 67
      (ieee.ofInt 0) (ieee.ofInt 1040) (ieee.ofInt 1) green
      (by simp [startup]) (by simp [startup]) (by decide)⟩

/-- C4 as stated fails: on the table built by the glyph loop, rendering a text
with the single code 200 leaves a record for 200 in the table, which had none. -/
theorem C4_table_read_only_counterexample :
    ∃ r, RenderText ieee (startup ieee demoFace) [200]
        (ieee.ofInt 0) (ieee.ofInt 0) (ieee.ofInt 1) green = some r ∧
      (startup ieee demoFace).Characters 200 = none ∧
      r.globals.Characters 200 = some ⟨0, (0, 0), (0, 0), 0⟩ ∧
      r.globals.Characters ≠ (startup ieee demoFace).Characters := by
  obtain ⟨s, r, _, hr, hrt, hg, _⟩ :=
    renderText_reached (startup ieee demoFace) [200]
      (ieee.ofInt 0) (ieee.ofInt 0) (ieee.ofInt 1) green
      (by simp [startup]) (by simp [startup])
  have h0 : (startup ieee demoFace).Characters 200 = none := by
    simp [startup, loadGlyphs_eq]
  have h1 : r.globals.Characters 200 = some ⟨0, (0, 0), (0, 0), 0⟩ := by
    rw [hg, hr.table 200]
    simp [h0]
  refine ⟨r, hrt, h0, h1, ?_⟩
  intro heq
  rw [heq, h0] at h1
  exact Option.noConfusion h1

/-- C4, amended: `RenderText` never changes or removes a record of the glyph
table; the table after the call is the table before it extended with an all-zero
record for every character code of the text that had no record.  So the table is
unchanged when every character of the text has a record. -/
theorem C4_table_only_gains_zero_records (A : Arith)
    (g : Globals A) (text : List GLchar) (x y scale_ : A.F) (color : vec3 A)
    (hT : g.transforms.length = ARRAY_LIMIT) (hL : g.letterMap.length = ARRAY_LIMIT) :
    ∃ r, RenderText A g text x y scale_ color = some r ∧
      (∀ k, r.globals.Characters k =
        if g.Characters k = none ∧ k ∈ text then some ⟨0, (0, 0), (0, 0), 0⟩
        else g.Characters k) ∧
      (∀ k rec, g.Characters k = some rec → r.globals.Characters k = some rec) ∧
      ((∀ c ∈ text, g.Characters c ≠ none) → r.globals.Characters = g.Characters) := by
  obtain ⟨s, r, _, hr, hrt, hg, _⟩ := renderText_reached g text x y scale_ color hT hL
  have htab : ∀ k, r.globals.Characters k =
      if g.Characters k = none ∧ k ∈ text then some ⟨0, (0, 0), (0, 0), 0⟩
      else g.Characters k := by
    intro k; rw [hg]; exact hr.table k
  refine ⟨r, hrt, htab, ?_, ?_⟩
  · intro k rec hk
    rw [htab k, hk]
    simp
  · intro hall
    funext k
    rw [htab k]
    by_cases hk : k ∈ text
    · have := hall k hk
      simp [this]
    · simp [hk]

/-- C4, amended, at a concrete input: the text `A`, code 200 on the startup state
of the example rasterizer. -/
theorem C4_table_only_gains_zero_records_witness :
    (startup ieee demoFace).transforms.length = ARRAY_LIMIT ∧
    (startup ieee demoFace).letterMap.length = ARRAY_LIMIT ∧
    ∃ r, RenderText ieee (startup ieee demoFace) [65, 200]
        (ieee.ofInt 0) (ieee.ofInt 0) (ieee.ofInt 1) green = some r ∧
      (∀ k, r.globals.Characters k =
        if (startup ieee demoFace).Characters k = none ∧ k ∈ [65, 200]
          then some ⟨0, (0, 0), (0, 0), 0⟩ else (startup ieee demoFace).Characters k) ∧
      (∀ k rec, (startup ieee demoFace).Characters k = some rec →
        r.globals.Characters k = some rec) ∧
      ((∀ c ∈ [65, 200], (startup ieee demoFace).Characters c ≠ none) →
        r.globals.Characters = (startup ieee demoFace).Characters) :=
  ⟨by simp [startup], by simp [startup],
    C4_table_only_gains_zero_records ieee (startup ieee demoFace) [65, 200]
      (ieee.ofInt 0) (ieee.ofInt 0) (ieee.ofInt 1) green
      (by simp [startup]) (by simp [startup])⟩

/-- C5 as stated fails: with a rasterizer that fails for code 127 (and loads every
other code), the table built by the glyph loop has no record for 127. -/
theorem C5_glyph_table_counterexample :
    (127 : Nat) < 128 ∧ (startup ieee demoFaceFailing).Characters 127 = none := by
  refine ⟨by decide, ?_⟩
  simp [startup, loadGlyphs_eq, demoFaceFailing]

/-- C5, amended: after the glyph loop, every code `c` in 0..127 whose
rasterization succeeded has exactly one record, with `TextureID = c`, a
non-negative advance (the reported advance as an unsigned 32-bit value), bearing
`(bitmap_left, bitmap_top)` and size `(width, rows)` as reported for `c`; a code
whose rasterization failed has no record; and no code outside 0..127 has one. -/
theorem C5_glyph_table_after_loading (A : Arith)
    (face : Face) (c : Nat) (slot : GlyphSlot) (hc : c < 128) (hf : face c = some slot) :
    (∃ rec, (startup A face).Characters c = some rec ∧
      rec.TextureID = (c : Int) ∧
      0 ≤ (rec.Advance : Int) ∧ rec.Advance < 2 ^ 32 ∧
      rec.Advance = (slot.advance_x % 2 ^ 32).toNat ∧
      rec.Bearing = (slot.bitmap_left, slot.bitmap_top) ∧
      rec.Size = ((slot.width : Int), (slot.rows : Int))) ∧
    (∀ k : Nat, face k = none → (startup A face).Characters k = none) ∧
    (∀ k : Nat, 128 ≤ k → (startup A face).Characters k = none) := by
  refine ⟨⟨mkCharacter c slot, ?_, rfl, ?_, ?_, rfl, rfl, rfl⟩, ?_, ?_⟩
  · simp [startup, loadGlyphs_eq, hc, hf]
  · exact Int.ofNat_nonneg _
  · simp only [mkCharacter]
    have h1 : 0 ≤ slot.advance_x % 2 ^ 32 := Int.emod_nonneg _ (by norm_num)
    have h2 : slot.advance_x % 2 ^ 32 < 2 ^ 32 := Int.emod_lt_of_pos _ (by norm_num)
    omega
  · intro k hk
    simp [startup, loadGlyphs_eq, hk]
  · intro k hk
    have : ¬ k < 128 := by omega
    simp [startup, loadGlyphs_eq, this]

/-- C5, amended, at a concrete input: code 65 of the rasterizer that fails for 127. -/
theorem C5_glyph_table_after_loading_witness :
    (65 : Nat) < 128 ∧ demoFaceFailing 65 = some ⟨120, 180, 8, 170, 3840⟩ ∧
    (∃ rec, (startup ieee demoFaceFailing).Characters 65 = some rec ∧
      rec.TextureID = ((65 : Nat) : Int) ∧
      0 ≤ (rec.Advance : Int) ∧ rec.Advance < 2 ^ 32 ∧
      rec.Advance = ((3840 : Int) % 2 ^ 32).toNat ∧
      rec.Bearing = (8, 170) ∧
      rec.Size = (((120 : Nat) : Int), ((180 : Nat) : Int))) ∧
    (∀ k : Nat, demoFaceFailing k = none → (startup ieee demoFaceFailing).Characters k = none) ∧
    (∀ k : Nat, 128 ≤ k → (startup ieee demoFaceFailing).Characters k = none) :=
  ⟨by decide, by simp [demoFaceFailing, demoFace],
    C5_glyph_table_after_loading ieee demoFaceFailing 65 ⟨120, 180, 8, 170, 3840⟩ (by decide)
      (by simp [demoFaceFailing, demoFace])⟩

/-- C6: from the startup state (table built by the glyph loop, both buffers of
400 entries), for any text with arbitrary codes: the state reached after any part
`pre` of the text has fill index below 400, which is the size of both buffers, so
the next write is in bounds, the loop body succeeds on any next character and
leaves the index below 400 again, and every entry of `letterMap` is a layer in
0..127; `RenderText` returns, every `TextRenderCall` got a length of at most 400,
and every uploaded layer index is in 0..127. -/
theorem C6_batch_invariant (A : Arith)
    (face : Face) (pre post : List GLchar) (c : GLchar) (x y scale_ : A.F) (color : vec3 A) :
    (∃ s s1, renderLoop A (A.div (A.mul scale_ (A.ofInt 48)) (A.ofInt 256)) x
        (initState (startup A face) x y) pre = some s ∧
      0 ≤ s.workingIndex ∧ s.workingIndex < ARRAY_LIMIT ∧
      s.globals.transforms.length = ARRAY_LIMIT ∧
      s.globals.letterMap.length = ARRAY_LIMIT ∧
      (∀ v ∈ s.globals.letterMap, 0 ≤ v ∧ v ≤ 127) ∧
      renderChar A (A.div (A.mul scale_ (A.ofInt 48)) (A.ofInt 256)) x s c = some s1 ∧
      s1.workingIndex < ARRAY_LIMIT ∧
      RenderText A (startup A face) (pre ++ post) x y scale_ color =
        (renderLoop A (A.div (A.mul scale_ (A.ofInt 48)) (A.ofInt 256)) x s post).bind
          finalFlush) ∧
    (∃ r, RenderText A (startup A face) (pre ++ post) x y scale_ color = some r ∧
      (∀ n ∈ r.calls, 0 ≤ n ∧ n ≤ ARRAY_LIMIT) ∧
      (∀ d ∈ r.draws, d.count ≤ ARRAY_LIMIT ∧ ∀ v ∈ d.letterMap, 0 ≤ v ∧ v ≤ 127) ∧
      (∀ v ∈ r.globals.letterMap, 0 ≤ v ∧ v ≤ 127)) := by
  constructor
  · obtain ⟨s, hs, hr, hrange⟩ :=
      startup_loop_range A face (A.div (A.mul scale_ (A.ofInt 48)) (A.ofInt 256)) x y pre
    obtain ⟨s1, hs1, hr1⟩ :=
      reached_step (startup A face).Characters _ x y pre s c hr
    refine ⟨s, s1, hs, Nat.zero_le _, reached_workingIndex_lt _ _ _ _ _ _ hr, hr.lenT, hr.lenL,
      hrange, hs1, reached_workingIndex_lt _ _ _ _ _ _ hr1, ?_⟩
    simp only [RenderText, renderLoop_append, hs, Option.some_bind]
  · obtain ⟨s, r, hs, hr, hrt, hg, _, _, hcalls, hcnt, _, hly, _⟩ :=
      renderText_reached (startup A face) (pre ++ post) x y scale_ color
        (by simp [startup]) (by simp [startup])
    obtain ⟨s', hs', _, hrange⟩ :=
      startup_loop_range A face (A.div (A.mul scale_ (A.ofInt 48)) (A.ofInt 256)) x y
        (pre ++ post)
    rw [hs] at hs'
    have hss : s = s' := Option.some.inj hs'
    subst hss
    have hcount : ∀ n ∈ batchCounts ((pre ++ post).filter visible).length,
        n ≤ ARRAY_LIMIT := fun n hn => (batchCounts_mem _ n hn).2
    refine ⟨r, hrt, ?_, ?_, ?_⟩
    · intro n hn
      refine ⟨Nat.zero_le _, ?_⟩
      rw [hcalls, List.mem_append, List.mem_singleton] at hn
      rcases hn with h | h
      · rw [hr.calls, hr.counts] at h
        rw [(List.mem_replicate.mp h).2]
      · rw [h]; exact Nat.le_of_lt (reached_workingIndex_lt _ _ _ _ _ _ hr)
    · intro d hd
      refine ⟨hcount _ (by rw [← hcnt]; exact List.mem_map_of_mem _ hd), ?_⟩
      intro v hv
      have hmem : v ∈ (r.draws.map DrawCall.letterMap).flatten :=
        List.mem_flatten.mpr ⟨d.letterMap, List.mem_map_of_mem _ hd, hv⟩
      rw [hly, layout_snd, List.mem_map] at hmem
      obtain ⟨k, _, hk⟩ := hmem
      rw [← hk]
      exact lookupD_loadGlyphs_textureID face k
    · rw [hg]; exact hrange

/-- C9: from any state whose buffers have 400 entries, running `RenderText` twice
in succession with the same arguments, the second run starting from the global
state the first one left, gives the same draws in both runs: same instance counts
and same uploaded transforms and layer indices. -/
theorem C9_render_twice_same_draws (A : Arith)
    (g : Globals A) (text : List GLchar) (x y scale_ : A.F) (color : vec3 A)
    (hT : g.transforms.length = ARRAY_LIMIT) (hL : g.letterMap.length = ARRAY_LIMIT) :
    ∃ r1 r2, RenderText A g text x y scale_ color = some r1 ∧
      RenderText A r1.globals text x y scale_ color = some r2 ∧
      r2.draws = r1.draws ∧
      r2.draws.map DrawCall.count = r1.draws.map DrawCall.count ∧
      r2.draws.map DrawCall.transforms = r1.draws.map DrawCall.transforms ∧
      r2.draws.map DrawCall.letterMap = r1.draws.map DrawCall.letterMap := by
  obtain ⟨s, r1, _, hr, hrt1, hg, _⟩ :=
    renderText_reached g text x y scale_ color hT hL
  have hT1 : r1.globals.transforms.length = ARRAY_LIMIT := by rw [hg]; exact hr.lenT
  have hL1 : r1.globals.letterMap.length = ARRAY_LIMIT := by rw [hg]; exact hr.lenL
  have hlk : ∀ c, lookupD r1.globals.Characters c = lookupD g.Characters c := by
    intro c; rw [hg]; exact lookupD_of_table g.Characters _ text hr.table c
  obtain ⟨r, r2, hrt, hrt2, heq, _⟩ :=
    renderText_congr g r1.globals text x y scale_ color hT hL hT1 hL1 hlk
  have hrr : r = r1 := Option.some.inj (hrt.symm.trans hrt1)
  subst hrr
  exact ⟨r, r2, hrt1, hrt2, heq, by rw [heq], by rw [heq], by rw [heq]⟩

/-- C9 at a concrete input: a text with a line break and a code without record,
on the startup state of the example rasterizer. -/
theorem C9_render_twice_same_draws_witness :
    (startup ieee demoFace).transforms.length = ARRAY_LIMIT ∧
    (startup ieee demoFace).letterMap.length = ARRAY_LIMIT ∧
    ∃ r1 r2, RenderText ieee (startup ieee demoFace) [72, 105, 10, 200, 33]
        (ieee.ofInt 0) (ieee.ofInt 1040) (ieee.ofInt 1) green = some r1 ∧
      RenderText ieee r1.globals [72, 105, 10, 200, 33]
        (ieee.ofInt 0) (ieee.ofInt 1040) (ieee.ofInt 1) green = some r2 ∧
      r2.draws = r1.draws ∧
      r2.draws.map DrawCall.count = r1.draws.map DrawCall.count ∧
      r2.draws.map DrawCall.transforms = r1.draws.map DrawCall.transforms ∧
      r2.draws.map DrawCall.letterMap = r1.draws.map DrawCall.letterMap :=
  ⟨by simp [startup], by simp [startup],
    C9_render_twice_same_draws ieee (startup ieee demoFace) [72, 105, 10, 200, 33]
      (ieee.ofInt 0) (ieee.ofInt 1040) (ieee.ofInt 1) green
      (by simp [startup]) (by simp [startup])⟩

/-- C8 as stated fails, in IEEE arithmetic on the startup state of the example
rasterizer (every `Advance >> 6` is 60).  With origin x 0 and requested scale
`1.3f` the fourth character of `AAAB` is laid out with pen x
`11501567 / 262144 = 43.87499618...`, which is not the origin plus the effective
scale times 180, whether the effective scale is the `float` the program computes,
the real `scale * 48 / 256` of the `float` scale, or `1.3 * 48 / 256`.  With
origin x 1000000000 and scale 1 the second character of `AB` is laid out with the
pen x of the first: the advance `60 * 0.1875` is lost. -/
theorem C8_pen_x_closed_form_counterexample :
    (lookupD (startup ieee demoFace).Characters 65).Advance >>> 6 = 60 ∧
    (∃ r, RenderText ieee (startup ieee demoFace) [65, 65, 65, 66]
        (ieee.ofInt 0) (ieee.ofInt 0) scale13 green = some r ∧
      (r.draws.map DrawCall.transforms).flatten[3]? =
        some (placement ieee eff13 (FP.fin false (11501567 <<< 131)) (ieee.ofInt 0)
          ⟨66, (120, 180), (8, 170), 3840⟩)) ∧
    FP.toRat (FP.fin false (11501567 <<< 131)) = 11501567 / 262144 ∧
    FP.toRat (FP.fin false (11501567 <<< 131)) ≠ 0 + FP.toRat eff13 * (60 + 60 + 60) ∧
    FP.toRat (FP.fin false (11501567 <<< 131)) ≠
      0 + FP.toRat scale13 * 48 / 256 * (60 + 60 + 60) ∧
    FP.toRat (FP.fin false (11501567 <<< 131)) ≠ 0 + 13 / 10 * 48 / 256 * (60 + 60 + 60) ∧
    (∃ r, RenderText ieee (startup ieee demoFace) [65, 66]
        (ieee.ofInt 1000000000) (ieee.ofInt 0) (ieee.ofInt 1) green = some r ∧
      (r.draws.map DrawCall.transforms).flatten[1]? =
        some (placement ieee eff1 (ieee.ofInt 1000000000) (ieee.ofInt 0)
          ⟨66, (120, 180), (8, 170), 3840⟩)) ∧
    FP.toRat (ieee.ofInt 1000000000) ≠ 1000000000 + FP.toRat eff1 * 60 := by
  obtain ⟨r, hrt, htr, _, _, _⟩ :=
    renderText_entry (startup ieee demoFace) [65, 65, 65] [] 66
      (ieee.ofInt 0) (ieee.ofInt 0) scale13 green
      (by simp [startup]) (by simp [startup]) (by decide)
  obtain ⟨r1, hrt1, htr1, _, _, _⟩ :=
    renderText_entry (startup ieee demoFace) [65] [] 66
      (ieee.ofInt 1000000000) (ieee.ofInt 0) (ieee.ofInt 1) green
      (by simp [startup]) (by simp [startup]) (by decide)
  have e13 : ieee.div (ieee.mul scale13 (ieee.ofInt 48)) (ieee.ofInt 256) = eff13 := rfl
  have e1 : ieee.div (ieee.mul (ieee.ofInt 1) (ieee.ofInt 48)) (ieee.ofInt 256) = eff1 := rfl
  have hl : ([65, 65, 65] ++ 66 :: [] : List GLchar) = [65, 65, 65, 66] := rfl
  have hl1 : ([65] ++ 66 :: [] : List GLchar) = [65, 66] := rfl
  have hk : (List.filter visible [65, 65, 65]).length = 3 := by decide
  have hk1 : (List.filter visible [65]).length = 1 := by decide
  rw [hl] at hrt
  rw [hl1] at hrt1
  rw [e13, hk, ieee_three_advances,
    penY_of_no_newline _ _ _ [65, 65, 65] (by decide),
    ieee_lookup_demo 66 (by decide) (by decide) (by decide)] at htr
  rw [e1, hk1, ieee_far_origin,
    penY_of_no_newline _ _ _ [65] (by decide),
    ieee_lookup_demo 66 (by decide) (by decide) (by decide)] at htr1
  refine ⟨?_, ⟨r, hrt, htr⟩, ieee_three_advances_value, ieee_closed_forms_differ.1,
    ieee_closed_forms_differ.2.1, ieee_closed_forms_differ.2.2, ⟨r1, hrt1, htr1⟩,
    ieee_far_origin_differs⟩
  rw [ieee_lookup_demo 65 (by decide) (by decide) (by decide)]
  decide

/-- C8, amended: the pen x at which a character is laid out is obtained from the
origin x by adding, in `float` arithmetic and in text order, the `float` product
`(Advance >> 6) * effective_scale` of every space and visible character since the
most recent newline (since the start of the text when there is none), each from
its own record: `x <- x + (Advance >> 6) * e` with both operations rounded.  A
newline resets the pen x to the origin x, so the first character of every line is
laid out at the pen x of the first character of the text.  `RenderText` ends with
the pen x obtained in the same way from the whole text. -/
theorem C8_pen_x_accumulates_line_advances (A : Arith)
    (g : Globals A) (pre post : List GLchar) (c : GLchar) (x y scale_ : A.F) (color : vec3 A)
    (hT : g.transforms.length = ARRAY_LIMIT) (hL : g.letterMap.length = ARRAY_LIMIT)
    (hv : visible c = true) :
    ∃ r e pen_x,
      RenderText A g (pre ++ c :: post) x y scale_ color = some r ∧
      e = A.div (A.mul scale_ (A.ofInt 48)) (A.ofInt 256) ∧
      pen_x = (currentLine pre).foldl
        (fun px k => A.add px
          (A.mul (A.ofInt (((lookupD g.Characters k).Advance >>> 6 : Nat) : Int)) e)) x ∧
      (r.draws.map DrawCall.transforms).flatten[(pre.filter visible).length]? =
        some ((translate (mat4.identity A)
            ⟨A.add pen_x (A.mul (A.ofInt (lookupD g.Characters c).Bearing.1) e),
              A.sub (penY A g.Characters e y pre)
                (A.mul (A.ofInt (256 - (lookupD g.Characters c).Bearing.2)) e),
              A.ofInt 0⟩).mul
          (scale (mat4.identity A)
            ⟨A.mul (A.ofInt 256) e, A.mul (A.ofInt 256) e, A.ofInt 0⟩)) ∧
      (pre = [] → pen_x = x) ∧
      (∀ p, pre = p ++ [10] → pen_x = x) ∧
      (∀ p k, pre = p ++ [k] → k ≠ 10 →
        pen_x = A.add
          ((currentLine p).foldl
            (fun px j => A.add px
              (A.mul (A.ofInt (((lookupD g.Characters j).Advance >>> 6 : Nat) : Int)) e)) x)
          (A.mul (A.ofInt (((lookupD g.Characters k).Advance >>> 6 : Nat) : Int)) e)) ∧
      r.x = (currentLine (pre ++ c :: post)).foldl
        (fun px k => A.add px
          (A.mul (A.ofInt (((lookupD g.Characters k).Advance >>> 6 : Nat) : Int)) e)) x := by
  obtain ⟨r, hrt, htr, _, hx, _⟩ :=
    renderText_entry g pre post c x y scale_ color hT hL hv
  refine ⟨r, _, _, hrt, rfl, rfl, htr, ?_, ?_, ?_, hx⟩
  · intro h
    subst h
    rfl
  · intro p h
    subst h
    have := penX_snoc g.Characters (A.div (A.mul scale_ (A.ofInt 48)) (A.ofInt 256)) x p 10
    simpa [penX, advanceBy] using this
  · intro p k h hk
    subst h
    have := penX_snoc g.Characters (A.div (A.mul scale_ (A.ofInt 48)) (A.ofInt 256)) x p k
    simpa [penX, advanceBy, hk] using this

/-- C8, amended, at a concrete input, in IEEE arithmetic: the character `C` after
`AB`, newline, `D`, origin (0, 100), scale 1, on the startup state of the example
rasterizer. -/
theorem C8_pen_x_accumulates_line_advances_witness :
    (startup ieee demoFace).transforms.length = ARRAY_LIMIT ∧
    (startup ieee demoFace).letterMap.length = ARRAY_LIMIT ∧
    visible 67 = true ∧
    ∃ r e pen_x,
      RenderText ieee (startup ieee demoFace) ([65, 66, 10, 68] ++ 67 :: [69])
        (ieee.ofInt 0) (ieee.ofInt 100) (ieee.ofInt 1) green = some r ∧
      e = ieee.div (ieee.mul (ieee.ofInt 1) (ieee.ofInt 48)) (ieee.ofInt 256) ∧
      pen_x = (currentLine [65, 66, 10, 68]).foldl
        (fun px k => ieee.add px
          (ieee.mul (ieee.ofInt
            (((lookupD (startup ieee demoFace).Characters k).Advance >>> 6 : Nat) : Int)) e))
        (ieee.ofInt 0) ∧
      (r.draws.map DrawCall.transforms).flatten[([65, 66, 10, 68].filter visible).length]? =
        some ((translate (mat4.identity ieee)
            ⟨ieee.add pen_x
                (ieee.mul (ieee.ofInt (lookupD (startup ieee demoFace).Characters 67).Bearing.1) e),
              ieee.sub (penY ieee (startup ieee demoFace).Characters e (ieee.ofInt 100)
                  [65, 66, 10, 68])
                (ieee.mul (ieee.ofInt
                  (256 - (lookupD (startup ieee demoFace).Characters 67).Bearing.2)) e),
              ieee.ofInt 0⟩).mul
          (scale (mat4.identity ieee)
            ⟨ieee.mul (ieee.ofInt 256) e, ieee.mul (ieee.ofInt 256) e, ieee.ofInt 0⟩)) ∧
      (([65, 66, 10, 68] : List GLchar) = [] → pen_x = ieee.ofInt 0) ∧
      (∀ p, ([65, 66, 10, 68] : List GLchar) = p ++ [10] → pen_x = ieee.ofInt 0) ∧
      (∀ p k, ([65, 66, 10, 68] : List GLchar) = p ++ [k] → k ≠ 10 →
        pen_x = ieee.add
          ((currentLine p).foldl
            (fun px j => ieee.add px
              (ieee.mul (ieee.ofInt
                (((lookupD (startup ieee demoFace).Characters j).Advance >>> 6 : Nat) : Int)) e))
            (ieee.ofInt 0))
          (ieee.mul (ieee.ofInt
            (((lookupD (startup ieee demoFace).Characters k).Advance >>> 6 : Nat) : Int)) e)) ∧
      r.x = (currentLine ([65, 66, 10, 68] ++ 67 :: [69])).foldl
        (fun px k => ieee.add px
          (ieee.mul (ieee.ofInt
            (((lookupD (startup ieee demoFace).Characters k).Advance >>> 6 : Nat) : Int)) e))
        (ieee.ofInt 0) :=
  ⟨by simp [startup], by simp [startup], by decide,
    C8_pen_x_accumulates_line_advances ieee (startup ieee demoFace) [65, 66, 10, 68] [69] 67
      (ieee.ofInt 0) (ieee.ofInt 100) (ieee.ofInt 1) green
      (by simp [startup]) (by simp [startup]) (by decide)⟩

/-- C7: for a visible character `c` of a text, reached after the characters `pre`
at the pen `(pen_x, pen_y)`, with `e` the `float` value of `scale * 48 / 256` for
the requested scale and the record looked up for `c`, the transform `RenderText`
uploads for `c` (entry number `count of visible characters of pre` of the batches)
is `translate(xpos, ypos, 0) * scale(256 e, 256 e, 0)` with
`xpos = pen_x + bearing.x * e` and `ypos = pen_y - (256 - bearing.y) * e`, uploaded
with the `TextureID` of the record; in exact arithmetic such a matrix maps
`(u, v, 0, 1)` to `(xpos + 256 e u, ypos + 256 e v, 0, 1)`.  Scenario: on the
startup state of a rasterizer that loads `A`, the text `A` at origin (0, 0) with
scale 1 gives exactly one draw, of one instance, with layer 65 and the transform of
`xpos = 0 + bearing.x * e`, `ypos = 0 - (256 - bearing.y) * e`, `e = 1 * 48 / 256`. -/
theorem C7_glyph_placement_transform (A : Arith)
    (g : Globals A) (pre post : List GLchar) (c : GLchar) (x y scale_ : A.F)
    (face : Face) (slot : GlyphSlot) (color : vec3 A)
    (hT : g.transforms.length = ARRAY_LIMIT) (hL : g.letterMap.length = ARRAY_LIMIT)
    (hv : visible c = true) (hA : face 65 = some slot) :
    (∃ r e pen_x pen_y xpos ypos,
      RenderText A g (pre ++ c :: post) x y scale_ color = some r ∧
      e = A.div (A.mul scale_ (A.ofInt 48)) (A.ofInt 256) ∧
      pen_x = penX A g.Characters e x pre ∧
      pen_y = penY A g.Characters e y pre ∧
      xpos = A.add pen_x (A.mul (A.ofInt (lookupD g.Characters c).Bearing.1) e) ∧
      ypos = A.sub pen_y (A.mul (A.ofInt (256 - (lookupD g.Characters c).Bearing.2)) e) ∧
      (r.draws.map DrawCall.transforms).flatten[(pre.filter visible).length]? =
        some ((translate (mat4.identity A) ⟨xpos, ypos, A.ofInt 0⟩).mul
          (scale (mat4.identity A)
            ⟨A.mul (A.ofInt 256) e, A.mul (A.ofInt 256) e, A.ofInt 0⟩)) ∧
      (r.draws.map DrawCall.letterMap).flatten[(pre.filter visible).length]? =
        some (lookupD g.Characters c).TextureID) ∧
    (∃ r e M, RenderText A (startup A face) [65] (A.ofInt 0) (A.ofInt 0) (A.ofInt 1) color
        = some r ∧
      e = A.div (A.mul (A.ofInt 1) (A.ofInt 48)) (A.ofInt 256) ∧
      r.draws = [⟨1, [M], [65]⟩] ∧
      M = (translate (mat4.identity A)
          ⟨A.add (A.ofInt 0) (A.mul (A.ofInt slot.bitmap_left) e),
            A.sub (A.ofInt 0) (A.mul (A.ofInt (256 - slot.bitmap_top)) e), A.ofInt 0⟩).mul
        (scale (mat4.identity A)
          ⟨A.mul (A.ofInt 256) e, A.mul (A.ofInt 256) e, A.ofInt 0⟩)) ∧
    (∀ xpos ypos a u v : ℚ,
      ((translate (mat4.identity exact) ⟨xpos, ypos, 0⟩).mul
          (scale (mat4.identity exact) ⟨a, a, 0⟩)).mulVec ⟨u, v, 0, 1⟩ =
        ⟨xpos + a * u, ypos + a * v, 0, 1⟩) := by
  refine ⟨?_, ?_, exact_translate_scale_mulVec⟩
  · obtain ⟨r, hrt, htr, hly, _, _⟩ :=
      renderText_entry g pre post c x y scale_ color hT hL hv
    exact ⟨r, _, _, _, _, _, hrt, rfl, rfl, rfl, rfl, rfl, htr, hly⟩
  · obtain ⟨s, r, _, _, hrt, _, _, _, _, hcnt, htr, hly, _⟩ :=
      renderText_reached (startup A face) [65] (A.ofInt 0) (A.ofInt 0) (A.ofInt 1) color
        (by simp [startup]) (by simp [startup])
    have hlay : layout A (startup A face).Characters
        (A.div (A.mul (A.ofInt 1) (A.ofInt 48)) (A.ofInt 256)) (A.ofInt 0) (A.ofInt 0) [65] =
        [entryAt A (startup A face).Characters
          (A.div (A.mul (A.ofInt 1) (A.ofInt 48)) (A.ofInt 256)) (A.ofInt 0) (A.ofInt 0)
          [] 65] := by
      simp [layout, layoutFrom, visible]
    have hb : batchCounts ([65].filter visible).length = [1] := by
      simp [batchCounts, ARRAY_LIMIT, visible]
    rw [hb] at hcnt
    rw [hlay] at htr hly
    have hA65 := lookupD_startup A face 65 slot (by decide) hA
    cases hd : r.draws with
    | nil => rw [hd] at hcnt; simp at hcnt
    | cons d rest =>
      rw [hd] at hcnt htr hly
      simp only [List.map_cons, List.cons.injEq, List.map_eq_nil_iff] at hcnt
      obtain ⟨hc1, hrest⟩ := hcnt
      subst hrest
      simp only [List.map_cons, List.map_nil, List.flatten_cons, List.flatten_nil,
        List.append_nil] at htr hly
      refine ⟨r, _, _, hrt, rfl, ?_, rfl⟩
      have hdl : d.letterMap = [65] := by
        rw [hly]; simp [entryAt, hA65, mkCharacter]
      have hdt : d.transforms = [(translate (mat4.identity A)
          ⟨A.add (A.ofInt 0) (A.mul (A.ofInt slot.bitmap_left)
              (A.div (A.mul (A.ofInt 1) (A.ofInt 48)) (A.ofInt 256))),
            A.sub (A.ofInt 0) (A.mul (A.ofInt (256 - slot.bitmap_top))
              (A.div (A.mul (A.ofInt 1) (A.ofInt 48)) (A.ofInt 256))), A.ofInt 0⟩).mul
        (scale (mat4.identity A)
          ⟨A.mul (A.ofInt 256) (A.div (A.mul (A.ofInt 1) (A.ofInt 48)) (A.ofInt 256)),
            A.mul (A.ofInt 256) (A.div (A.mul (A.ofInt 1) (A.ofInt 48)) (A.ofInt 256)),
            A.ofInt 0⟩)] := by
        rw [htr]
        simp only [entryAt, hA65, mkCharacter, penX_nil,
          penY_of_no_newline _ _ _ [] (by decide), placement]
      have hde : d = ⟨d.count, d.transforms, d.letterMap⟩ := rfl
      rw [hd, hde, hc1, hdt, hdl]

/-- C7 at a concrete input, in IEEE arithmetic: the character `C` reached after
`AB`, newline, on the startup state of the example rasterizer, origin (0, 100),
scale 1; and the scenario for the example rasterizer, where the uploaded matrix has
scale entries 48 and translation `(8 * 48 / 256, -(256 - 170) * 48 / 256, 0, 1)`. -/
theorem C7_glyph_placement_transform_witness :
    (startup ieee demoFace).transforms.length = ARRAY_LIMIT ∧
    (startup ieee demoFace).letterMap.length = ARRAY_LIMIT ∧
    visible 67 = true ∧ demoFace 65 = some ⟨120, 180, 8, 170, 3840⟩ ∧
    ((placement ieee eff1 (ieee.ofInt 0) (ieee.ofInt 0) ⟨65, (120, 180), (8, 170), 3840⟩).c0.x
        = ieee.ofInt 48 ∧
      (placement ieee eff1 (ieee.ofInt 0) (ieee.ofInt 0) ⟨65, (120, 180), (8, 170), 3840⟩).c1.y
        = ieee.ofInt 48 ∧
      FP.toRat (placement ieee eff1 (ieee.ofInt 0) (ieee.ofInt 0)
        ⟨65, (120, 180), (8, 170), 3840⟩).c3.x = 8 * 48 / 256 ∧
      FP.toRat (placement ieee eff1 (ieee.ofInt 0) (ieee.ofInt 0)
        ⟨65, (120, 180), (8, 170), 3840⟩).c3.y = -((256 - 170) * 48 / 256) ∧
      (placement ieee eff1 (ieee.ofInt 0) (ieee.ofInt 0) ⟨65, (120, 180), (8, 170), 3840⟩).c3.z
        = ieee.ofInt 0 ∧
      (placement ieee eff1 (ieee.ofInt 0) (ieee.ofInt 0) ⟨65, (120, 180), (8, 170), 3840⟩).c3.w
        = ieee.ofInt 1) ∧
    (∃ r e pen_x pen_y xpos ypos,
      RenderText ieee (startup ieee demoFace) ([65, 66, 10] ++ 67 :: [68])
        (ieee.ofInt 0) (ieee.ofInt 100) (ieee.ofInt 1) green = some r ∧
      e = ieee.div (ieee.mul (ieee.ofInt 1) (ieee.ofInt 48)) (ieee.ofInt 256) ∧
      pen_x = penX ieee (startup ieee demoFace).Characters e (ieee.ofInt 0) [65, 66, 10] ∧
      pen_y = penY ieee (startup ieee demoFace).Characters e (ieee.ofInt 100) [65, 66, 10] ∧
      xpos = ieee.add pen_x
        (ieee.mul (ieee.ofInt (lookupD (startup ieee demoFace).Characters 67).Bearing.1) e) ∧
      ypos = ieee.sub pen_y
        (ieee.mul (ieee.ofInt (256 - (lookupD (startup ieee demoFace).Characters 67).Bearing.2))
          e) ∧
      (r.draws.map DrawCall.transforms).flatten[([65, 66, 10].filter visible).length]? =
        some ((translate (mat4.identity ieee) ⟨xpos, ypos, ieee.ofInt 0⟩).mul
          (scale (mat4.identity ieee)
            ⟨ieee.mul (ieee.ofInt 256) e, ieee.mul (ieee.ofInt 256) e, ieee.ofInt 0⟩)) ∧
      (r.draws.map DrawCall.letterMap).flatten[([65, 66, 10].filter visible).length]? =
        some (lookupD (startup ieee demoFace).Characters 67).TextureID) ∧
    (∃ r e M, RenderText ieee (startup ieee demoFace) [65]
        (ieee.ofInt 0) (ieee.ofInt 0) (ieee.ofInt 1) green = some r ∧
      e = ieee.div (ieee.mul (ieee.ofInt 1) (ieee.ofInt 48)) (ieee.ofInt 256) ∧
      r.draws = [⟨1, [M], [65]⟩] ∧
      M = (translate (mat4.identity ieee)
          ⟨ieee.add (ieee.ofInt 0) (ieee.mul (ieee.ofInt 8) e),
            ieee.sub (ieee.ofInt 0) (ieee.mul (ieee.ofInt (256 - 170)) e), ieee.ofInt 0⟩).mul
        (scale (mat4.identity ieee)
          ⟨ieee.mul (ieee.ofInt 256) e, ieee.mul (ieee.ofInt 256) e, ieee.ofInt 0⟩)) ∧
    (∀ xpos ypos a u v : ℚ,
      ((translate (mat4.identity exact) ⟨xpos, ypos, 0⟩).mul
          (scale (mat4.identity exact) ⟨a, a, 0⟩)).mulVec ⟨u, v, 0, 1⟩ =
        ⟨xpos + a * u, ypos + a * v, 0, 1⟩) :=
  ⟨by simp [startup], by simp [startup], by decide, by simp [demoFace], ieee_placement_A,
    C7_glyph_placement_transform ieee (startup ieee demoFace) [65, 66, 10] [68] 67
      (ieee.ofInt 0) (ieee.ofInt 100) (ieee.ofInt 1) demoFace
      ⟨120, 180, 8, 170, 3840⟩ green (by simp [startup]) (by simp [startup])
      (by decide) (by simp [demoFace])⟩

end TextRendering
